import Mathlib

/-!
Verification of the `nofx` trailing-stop engine against its natural-language
specification.  Go `float64` values are modelled as rationals (`ℚ`), Go maps
as association lists, `time.Time` / `time.Duration` as integer nanosecond
counts, and fallible calls as `Except`.  Log strings are elided: they are
write-only diagnostics that no property depends on.
-/

namespace NofxTrailing

/-! ### Computable string primitives

The Go code uses `strings.ToUpper`, `strings.ToLower`, `strings.TrimSpace`
and `strings.HasPrefix`.  Lean's own `String.toUpper` / `String.isPrefixOf`
are compiled externs whose Lean bodies do not reduce in the kernel, so the
same operations are modelled on the underlying character lists. -/

/-- `strings.ToUpper`, character-wise. -/
def strToUpper (s : String) : String := ⟨s.data.map Char.toUpper⟩

/-- `strings.ToLower`, character-wise. -/
def strToLower (s : String) : String := ⟨s.data.map Char.toLower⟩

/-- `strings.TrimSpace`: drop whitespace from both ends. -/
def strTrim (s : String) : String :=
  ⟨((s.data.dropWhile Char.isWhitespace).reverse.dropWhile Char.isWhitespace).reverse⟩

/-- `strings.HasPrefix`, on character lists. -/
def strStartsWith (s p : String) : Bool := p.data.isPrefixOf s.data

/-! ### Kline data and the ATR primitive (market.Kline / calculateATRFromKlines) -/

/-- One kline bar, as used by the ATR primitive (fields `High`, `Low`, `Close`
of `market.Kline`; the remaining fields are not read). -/
structure Kline where
  high : ℚ
  low : ℚ
  close : ℚ
deriving Repr, DecidableEq

/-- True range of bar `k` given the previous close, i.e.
`max(h−l, |h−prevClose|, |l−prevClose|)` — the body of the `trs[i]`
assignment in `calculateATRFromKlines`. -/
def trueRange (prevClose : ℚ) (k : Kline) : ℚ :=
  max (k.high - k.low) (max |k.high - prevClose| |k.low - prevClose|)

/-- The list `trs[1], …, trs[n−1]` built by the first loop of
`calculateATRFromKlines` (the unused `trs[0]` slot is dropped). -/
def trList : List Kline → List ℚ
  | [] => []
  | [_] => []
  | a :: b :: rest => trueRange a.close b :: trList (b :: rest)

/-- Embedding of `calculateATRFromKlines` (src/unnamed/part_002): guard
`len(klines) <= period || period <= 0` returns 0; otherwise seed with the
arithmetic mean of `trs[1..period]` and apply Wilder smoothing over the
remaining true ranges. -/
def calculateATRFromKlines (klines : List Kline) (period : ℤ) : ℚ :=
  if (klines.length : ℤ) ≤ period ∨ period ≤ 0 then 0
  else
    let p : ℕ := period.toNat
    let trs := trList klines
    let seed := ((trs.take p).sum) / (p : ℚ)
    (trs.drop p).foldl (fun atr tr => (atr * ((p : ℚ) - 1) + tr) / (p : ℚ)) seed

/-- Spec-side true range at index `i ≥ 1` of the kline array:
`max(h_i − l_i, |h_i − c_{i−1}|, |l_i − c_{i−1}|)` (spec §4.1). -/
def trAt (klines : List Kline) (i : ℕ) : ℚ :=
  trueRange (klines.getD (i - 1) ⟨0, 0, 0⟩).close (klines.getD i ⟨0, 0, 0⟩)

/-- Spec-side smoothed ATR value at index `i` (defined for `i ≥ p`): the seed
at `i = p` is the arithmetic mean of `TR[1..p]`, and each later index applies
Wilder smoothing `ATR_i = (ATR_{i−1}·(p−1) + TR_i)/p` (spec §4.1).  The
recursion is phrased on the offset `j = i − p`. -/
def atrSpecFrom (klines : List Kline) (p : ℕ) : ℕ → ℚ
  | 0 => (((List.range p).map (fun j => trAt klines (j + 1))).sum) / (p : ℚ)
  | j + 1 => (atrSpecFrom klines p j * ((p : ℚ) - 1) + trAt klines (p + j + 1)) / (p : ℚ)

/-- Spec-side ATR contract (spec §4.1): 0 unless `n > p` and `p > 0`,
otherwise the final smoothed value `ATR_{n−1}`. -/
def atrSpec (klines : List Kline) (period : ℤ) : ℚ :=
  if (klines.length : ℤ) ≤ period ∨ period ≤ 0 then 0
  else atrSpecFrom klines period.toNat (klines.length - 1 - period.toNat)

/-! ### The stop-validity predicate (isStopLossValid) -/

/-- Embedding of `TrailingStopMonitor.isStopLossValid`
(src/trader/trailingstop/atr_calculator.go lines 588–636).  Returns
`(valid, triggerClose)`.  The Go method dispatches on `side == "long"`,
skips the entry-price check when `allowInitialStop` holds, and checks the
mark-price relation second. -/
def isStopLossValid (side : String) (entryPrice newStopLoss currentPrice : ℚ)
    (allowInitialStop : Bool) : Bool × Bool :=
  if side = "long" then
    if ¬ allowInitialStop ∧ newStopLoss < entryPrice then (false, false)
    else if newStopLoss ≥ currentPrice then (false, true)
    else (true, false)
  else
    if ¬ allowInitialStop ∧ newStopLoss > entryPrice then (false, false)
    else if newStopLoss ≤ currentPrice then (false, true)
    else (true, false)

/-- Spec-side validity cascade, written from the claim: for long,
`(false,false)` when `allow_initial_stop = false` and `new_stop < entry`;
then `(false,true)` when `new_stop ≥ mark`; else `(true,false)`; mirrored
for short. -/
def stopValiditySpec (side : String) (entry newStop mark : ℚ)
    (allowInitial : Bool) : Bool × Bool :=
  if side = "long" then
    if allowInitial = false ∧ newStop < entry then (false, false)
    else if newStop ≥ mark then (false, true)
    else (true, false)
  else
    if allowInitial = false ∧ newStop > entry then (false, false)
    else if newStop ≤ mark then (false, true)
    else (true, false)

/-! ### Trailing configuration (config.go) -/

/-- One R-band of a profile (`TrailingRange` in config.go): `MaxR` (0 means
unbounded), `LockRatio`, `BaseATRMultiplier`, `Label`. -/
structure TrailingRange where
  maxR : ℚ
  lockRatio : ℚ
  baseATRMultiplier : ℚ
  label : String
deriving Repr, DecidableEq

/-- Volatility-regime adjustment knobs (`RegimeAdjustment` in config.go). -/
structure RegimeAdjustment where
  lowThreshold : ℚ
  lowMultiplier : ℚ
  highThreshold : ℚ
  highMultiplier : ℚ
deriving Repr, DecidableEq

/-- Per-asset-class profile (`AssetProfile` in config.go).  `tPlusTwoDuration`
is a `time.Duration`, i.e. a nanosecond count. -/
structure AssetProfile where
  ranges : List TrailingRange
  regimeAdjustment : RegimeAdjustment
  atrPeriod : ℤ
  maxRLockAlpha : ℚ
  phaseStartBreakeven : ℚ
  minLockedR : ℚ
  tPlusTwoDuration : ℤ
  tPlusTwoLockRatio : ℚ
deriving Repr, DecidableEq

/-- Symbol-prefix → asset-class rule (`AssetClassRule` in config.go). -/
structure AssetClassRule where
  pfx : String
  cls : String
deriving Repr, DecidableEq

/-- The trailing configuration (`Config` in config.go).  The Go
`map[string]*AssetProfile` is modelled as an association list; entries are
the non-nil profiles. -/
structure Config where
  atrPeriod : ℤ
  phaseStartBreakeven : ℚ
  defaultAssetClass : String
  assetClassRules : List AssetClassRule
  assetProfiles : List (String × AssetProfile)
  defaultMinLockedR : ℚ
  tPlusTwoDuration : ℤ
  tPlusTwoLockRatio : ℚ
deriving Repr, DecidableEq

/-- The rule-scanning loop of `Config.assetClassForSymbol`: first rule whose
upper-cased prefix is non-empty and prefixes `s` wins; else the default. -/
def matchClassRule (defaultClass s : String) : List AssetClassRule → String
  | [] => defaultClass
  | r :: rest =>
    let p := strToUpper r.pfx
    if p ≠ "" ∧ strStartsWith s p then r.cls else matchClassRule defaultClass s rest

/-- Embedding of `Config.assetClassForSymbol`: case-insensitive prefix match
over the ordered rule list, first match wins, else the default class.  (The
Go code upper-cases and trims the symbol and upper-cases each prefix.) -/
def Config.assetClassForSymbol (c : Config) (symbol : String) : String :=
  matchClassRule c.defaultAssetClass (strToUpper (strTrim symbol)) c.assetClassRules

/-- Embedding of `Config.assetProfile`: the class's profile, else the default
class's profile, else the first profile in the map (Go ranges over the map;
the model uses list order), else none. -/
def Config.assetProfile (c : Config) (assetClass : String) : Option AssetProfile :=
  match c.assetProfiles.lookup assetClass with
  | some p => some p
  | none =>
    match (if c.defaultAssetClass ≠ "" then c.assetProfiles.lookup c.defaultAssetClass else none) with
    | some p => some p
    | none => c.assetProfiles.head?.map Prod.snd

/-- The band-walking loop of `Config.trailingParams`: the first band with
`MaxR == 0` or `currentR < MaxR`. -/
def findBand (currentR : ℚ) : List TrailingRange → Option TrailingRange
  | [] => none
  | b :: rest =>
    if b.maxR = 0 ∨ currentR < b.maxR then some b else findBand currentR rest

/-- Embedding of `Config.trailingParams`: walk the band list; the first band
with `MaxR == 0` or `currentR < MaxR` supplies `(lockRatio, baseATRMultiplier,
label)`; with no match the last band is used; with no profile or no bands the
hard-coded default `(0.30, 3.0, …)` is returned. -/
def Config.trailingParams (c : Config) (assetClass : String) (currentR : ℚ) :
    ℚ × ℚ × String :=
  match c.assetProfile assetClass with
  | none => (3/10, 3, "阶段2：默认")
  | some p =>
    if p.ranges = [] then (3/10, 3, "阶段2：默认")
    else
      match findBand currentR p.ranges with
      | some b => (b.lockRatio, b.baseATRMultiplier, b.label)
      | none =>
        let last := p.ranges.getLastD ⟨0, 0, 0, ""⟩
        (last.lockRatio, last.baseATRMultiplier, last.label)

/-- Embedding of `Config.atrPeriodForClass`: the profile's period when
positive, else the global one. -/
def Config.atrPeriodForClass (c : Config) (assetClass : String) : ℤ :=
  match c.assetProfile assetClass with
  | some p => if p.atrPeriod > 0 then p.atrPeriod else c.atrPeriod
  | none => c.atrPeriod

/-- Embedding of `Config.adjustATRMultiplier`: no profile or `regimeVol ≤ 0`
returns the base; below the (positive) low threshold scales by the low
multiplier; above the (positive) high threshold scales by the high
multiplier; otherwise the base. -/
def Config.adjustATRMultiplier (c : Config) (assetClass : String)
    (base regimeVol : ℚ) : ℚ :=
  match c.assetProfile assetClass with
  | none => base
  | some p =>
    if regimeVol ≤ 0 then base
    else
      let adj := p.regimeAdjustment
      if adj.lowThreshold > 0 ∧ adj.lowMultiplier > 0 ∧ regimeVol < adj.lowThreshold then
        base * adj.lowMultiplier
      else if adj.highThreshold > 0 ∧ adj.highMultiplier > 0 ∧ regimeVol > adj.highThreshold then
        base * adj.highMultiplier
      else base

/-- Embedding of `Config.phaseStartBreakevenForClass`: the profile's value
when positive, else the global one. -/
def Config.phaseStartBreakevenForClass (c : Config) (assetClass : String) : ℚ :=
  match c.assetProfile assetClass with
  | some p => if p.phaseStartBreakeven > 0 then p.phaseStartBreakeven else c.phaseStartBreakeven
  | none => c.phaseStartBreakeven

/-- Embedding of `Config.minLockedRForClass`: profile value when positive,
else the config's `DefaultMinLockedR` when positive, else the built-in
default (0.2), else 0.  The built-in `defaultConfig.DefaultMinLockedR` is
0.2, so the final fallback collapses to the constant. -/
def Config.minLockedRForClass (c : Config) (assetClass : String) : ℚ :=
  match c.assetProfile assetClass with
  | some p =>
    if p.minLockedR > 0 then p.minLockedR
    else if c.defaultMinLockedR > 0 then c.defaultMinLockedR
    else 1/5
  | none => if c.defaultMinLockedR > 0 then c.defaultMinLockedR else 1/5

/-- Embedding of `Config.tPlusTwoLockRatioForClass` (profile, then config,
then built-in 0.80). -/
def Config.tPlusTwoLockRatioForClass (c : Config) (assetClass : String) : ℚ :=
  match c.assetProfile assetClass with
  | some p =>
    if p.tPlusTwoLockRatio > 0 then p.tPlusTwoLockRatio
    else if c.tPlusTwoLockRatio > 0 then c.tPlusTwoLockRatio
    else 4/5
  | none => if c.tPlusTwoLockRatio > 0 then c.tPlusTwoLockRatio else 4/5

/-- Embedding of `Config.tPlusTwoDurationForClass` (profile, then config,
then built-in 3h, in nanoseconds). -/
def Config.tPlusTwoDurationForClass (c : Config) (assetClass : String) : ℤ :=
  match c.assetProfile assetClass with
  | some p =>
    if p.tPlusTwoDuration > 0 then p.tPlusTwoDuration
    else if c.tPlusTwoDuration > 0 then c.tPlusTwoDuration
    else 3 * 3600 * 1000000000
  | none => if c.tPlusTwoDuration > 0 then c.tPlusTwoDuration else 3 * 3600 * 1000000000

/-- The built-in `btc` profile of `defaultConfig` (config.go). -/
def btcProfile : AssetProfile where
  ranges :=
    [⟨1, 1/5, 5/2, "🛡️ BTC启动保护"⟩,
     ⟨2, 1/2, 3/2, "💰 BTC达标锁利"⟩,
     ⟨0, 4/5, 1, "🚀 BTC加速冲顶"⟩]
  regimeAdjustment := ⟨1/200, 9/10, 1/40, 6/5⟩
  atrPeriod := 7
  maxRLockAlpha := 7/10
  phaseStartBreakeven := 3/5
  minLockedR := 1/5
  tPlusTwoDuration := 0
  tPlusTwoLockRatio := 0

/-- The built-in `trend_alt` profile of `defaultConfig` (config.go). -/
def trendAltProfile : AssetProfile where
  ranges :=
    [⟨3/2, 1/10, 3, "🎢 山寨抗震荡"⟩,
     ⟨3, 3/5, 2, "📈 山寨主升浪"⟩,
     ⟨0, 9/10, 6/5, "💸 山寨极速落袋"⟩]
  regimeAdjustment := ⟨1/50, 1, 1/10, 13/10⟩
  atrPeriod := 5
  maxRLockAlpha := 3/5
  phaseStartBreakeven := 4/5
  minLockedR := 1/5
  tPlusTwoDuration := 0
  tPlusTwoLockRatio := 0

/-- The built-in `defaultConfig` of config.go: ATR period 7, breakeven 0.8R,
default class `trend_alt`, min locked R 0.2, T+2 = 3h at ratio 0.8, the
`BTC → btc` rule, and the `btc` / `trend_alt` profiles. -/
def defaultConfig : Config where
  atrPeriod := 7
  phaseStartBreakeven := 4/5
  defaultAssetClass := "trend_alt"
  assetClassRules := [⟨"BTC", "btc"⟩]
  assetProfiles := [("btc", btcProfile), ("trend_alt", trendAltProfile)]
  defaultMinLockedR := 1/5
  tPlusTwoDuration := 3 * 3600 * 1000000000
  tPlusTwoLockRatio := 4/5

/-! ### Snapshots and the trailing calculator (atr_calculator.go) -/

/-- Position snapshot fields read by the calculator and monitor (`Snapshot`
in the snapshot parser). -/
structure Snapshot where
  symbol : String
  side : String
  entryPrice : ℚ
  markPrice : ℚ
  quantity : ℚ
  leverage : ℤ
deriving Repr, DecidableEq

/-- Position key `symbol + "_" + lower(trim(side))` (`composePositionKey`). -/
def composePositionKey (symbol side : String) : String :=
  symbol ++ "_" ++ strToLower (strTrim side)

/-- Key of a snapshot (`Snapshot.Key`). -/
def Snapshot.key (p : Snapshot) : String :=
  composePositionKey p.symbol p.side

/-- `RiskSnapshot` as passed to the calculator: initial stop, peak favourable
price, and the highest R seen. -/
structure RiskSnapshot where
  initialStop : ℚ
  peakPrice : ℚ
  maxR : ℚ
deriving Repr, DecidableEq

/-- Error outcomes of the calculator; the Go code returns formatted error
strings, modelled by constructors (the texts are log-only). -/
inductive CalcError where
  | riskDistanceInvalid
  | atrFetchFailed
  | atrUnavailable
deriving Repr, DecidableEq

deriving instance DecidableEq for Except

/-- The epsilon of `floatsAlmostEqual` (math_utils.go): `1e-6`. -/
def floatEqualityEpsilon : ℚ := 1/1000000

/-- Embedding of `floatsAlmostEqual` (math_utils.go lines 7–9). -/
def floatsAlmostEqual (a b : ℚ) : Bool :=
  |a - b| ≤ floatEqualityEpsilon

/-- Embedding of `currentRMultiple`: `(mark − entry)/D` for long,
`(entry − mark)/D` otherwise. -/
def currentRMultiple (side : String) (entry mark riskDistance : ℚ) : ℚ :=
  if side = "long" then (mark - entry) / riskDistance
  else (entry - mark) / riskDistance

/-- Embedding of `tightenStopLong`: move the stop up only. -/
def tightenStopLong (current candidate : ℚ) : ℚ :=
  if candidate > current then candidate else current

/-- Embedding of `tightenStopShort`: move the stop down only. -/
def tightenStopShort (current candidate : ℚ) : ℚ :=
  if candidate < current then candidate else current

/-- The locked-R computation shared by `calculateDynamicStopLong` and
`calculateDynamicStopShort` (atr_calculator.go lines 145–155 and 201–211):
`lockedR = max(currentR·lockRatio, 1)`, then, when the profile's
`MaxRLockAlpha > 0` and `MaxR > 0`, raised to
`alphaLock = min(MaxR·MaxRLockAlpha, currentR)` if that exceeds it. -/
def lockedRFor (profile : Option AssetProfile) (maxR currentR lockRatio : ℚ) : ℚ :=
  let lockedR := max (currentR * lockRatio) 1
  match profile with
  | none => lockedR
  | some p =>
    if p.maxRLockAlpha > 0 ∧ maxR > 0 then
      let alphaLock := maxR * p.maxRLockAlpha
      let alphaLock := if alphaLock > currentR then currentR else alphaLock
      if alphaLock > lockedR then alphaLock else lockedR
    else lockedR

/-- Candidate S1 for a long position: `max(entry + lockedR·D, entry)`. -/
def s1Long (entry lockedR riskDistance : ℚ) : ℚ :=
  max (entry + lockedR * riskDistance) entry

/-- Candidate S1 for a short position: `min(entry − lockedR·D, entry)`. -/
def s1Short (entry lockedR riskDistance : ℚ) : ℚ :=
  min (entry - lockedR * riskDistance) entry

/-- Candidate S2 for a long position: `peak − ATR·mult`, where the peak falls
back to the mark when unset (`≤ 0`). -/
def s2Long (peakPrice mark atr atrMult : ℚ) : ℚ :=
  (if peakPrice ≤ 0 then mark else peakPrice) - atr * atrMult

/-- Candidate S2 for a short position: `peak + ATR·mult` with the same peak
fallback. -/
def s2Short (peakPrice mark atr atrMult : ℚ) : ℚ :=
  (if peakPrice ≤ 0 then mark else peakPrice) + atr * atrMult

/-- Embedding of `calculateDynamicStopLong` (atr_calculator.go lines
124–178).  The `atrPeriod` parameter of the Go function feeds only the log
string and is dropped; the returned reason string is elided likewise. -/
def calculateDynamicStopLong (entry mark baseStop : ℚ) (risk : RiskSnapshot)
    (currentR atr regimeVol : ℚ) (assetClass : String) (cfg : Config) :
    Except CalcError ℚ :=
  let riskDistance := |entry - risk.initialStop|
  if riskDistance ≤ 0 then .error .riskDistanceInvalid
  else
    let profile := cfg.assetProfile assetClass
    let tp := cfg.trailingParams assetClass currentR
    let atrMult := cfg.adjustATRMultiplier assetClass tp.2.1 regimeVol
    let lockedR := lockedRFor profile risk.maxR currentR tp.1
    let s1 := s1Long entry lockedR riskDistance
    let s2 := s2Long risk.peakPrice mark atr atrMult
    let candidate := max baseStop (max s1 s2)
    .ok (tightenStopLong baseStop candidate)

/-- Embedding of `calculateDynamicStopShort` (atr_calculator.go lines
180–234), mirroring the long case with `min`. -/
def calculateDynamicStopShort (entry mark baseStop : ℚ) (risk : RiskSnapshot)
    (currentR atr regimeVol : ℚ) (assetClass : String) (cfg : Config) :
    Except CalcError ℚ :=
  let riskDistance := |entry - risk.initialStop|
  if riskDistance ≤ 0 then .error .riskDistanceInvalid
  else
    let profile := cfg.assetProfile assetClass
    let tp := cfg.trailingParams assetClass currentR
    let atrMult := cfg.adjustATRMultiplier assetClass tp.2.1 regimeVol
    let lockedR := lockedRFor profile risk.maxR currentR tp.1
    let s1 := s1Short entry lockedR riskDistance
    let s2 := s2Short risk.peakPrice mark atr atrMult
    let candidate := min baseStop (min s1 s2)
    .ok (tightenStopShort baseStop candidate)

/-- An ATR fetcher (`ATRFetcher`): symbol and period to ATR or an error. -/
def ATRFetcher : Type := String → ℤ → Except CalcError ℚ

/-- Embedding of `ATRTrailingCalculator.Calculate` (atr_calculator.go lines
41–115): risk-distance guard, phase-0 hold below the breakeven threshold,
ATR fetch and positivity check, then the side-specific dynamic stop.  The
nil-receiver guards and the returned reason string are elided. -/
def Calculate (cfg : Config) (fetchATR : ATRFetcher) (pos : Snapshot)
    (risk : RiskSnapshot) (prevStop : ℚ) (hasPrevStop : Bool) :
    Except CalcError ℚ :=
  let entry := pos.entryPrice
  let mark := pos.markPrice
  let riskDistance := |entry - risk.initialStop|
  if riskDistance ≤ 0 then .error .riskDistanceInvalid
  else
    let currentR := currentRMultiple pos.side entry mark riskDistance
    let baseStop := if hasPrevStop then prevStop else risk.initialStop
    let assetClass := cfg.assetClassForSymbol pos.symbol
    let phaseStartBreakeven := cfg.phaseStartBreakevenForClass assetClass
    if currentR < phaseStartBreakeven then .ok baseStop
    else
      let atrPeriod := cfg.atrPeriodForClass assetClass
      match fetchATR pos.symbol atrPeriod with
      | .error _ => .error .atrFetchFailed
      | .ok atr =>
        if atr ≤ 0 then .error .atrUnavailable
        else
          let regimeVol := atr / mark
          if pos.side = "long" then
            calculateDynamicStopLong entry mark baseStop risk currentR atr regimeVol assetClass cfg
          else
            calculateDynamicStopShort entry mark baseStop risk currentR atr regimeVol assetClass cfg

/-! ### Risk registry (risk_registry.go) -/

/-- Per-position mutable risk state (`riskStageInfo`).  `openedAt` models the
`time.Time` as a nanosecond timestamp; the zero value 0 plays the role of
`time.Time.IsZero()`. -/
structure riskStageInfo where
  initialStop : ℚ
  peakPrice : ℚ
  maxR : ℚ
  lastRecordedStop : ℚ
  hasRecordedStop : Bool
  openedAt : ℤ
deriving Repr, DecidableEq

/-- The registry's `map[string]*riskStageInfo`, as an association list. -/
def Registry : Type := List (String × riskStageInfo)

/-- Go map assignment `m[k] = v`: replace any binding of `k`. -/
def mapSet {α : Type} (l : List (String × α)) (k : String) (v : α) :
    List (String × α) :=
  (k, v) :: l.filter (fun e => e.1 ≠ k)

/-- Go map `delete(m, k)`. -/
def mapRemove {α : Type} (l : List (String × α)) (k : String) :
    List (String × α) :=
  l.filter (fun e => e.1 ≠ k)

/-- Embedding of `riskRegistry.registerInitialStop` (risk_registry.go lines
35–48): the state for the key is replaced wholesale with a fresh record
holding only the initial stop and the registration time. -/
def registerInitialStop (reg : Registry) (symbol side : String) (stop : ℚ)
    (now : ℤ) : Registry :=
  mapSet reg (composePositionKey symbol side)
    { initialStop := stop
      peakPrice := 0
      maxR := 0
      lastRecordedStop := 0
      hasRecordedStop := false
      openedAt := now }

/-- Embedding of `TrailingStopMonitor.RegisterInitialStop` (atr_calculator.go
lines 327–338): rejects an empty symbol or a non-positive stop, otherwise
delegates to the registry. -/
def monitorRegisterInitialStop (reg : Registry) (symbol side : String)
    (stop : ℚ) (now : ℤ) : Registry :=
  if symbol = "" ∨ stop ≤ 0 then reg
  else registerInitialStop reg symbol side stop now

/-- The mutation body of `riskRegistry.updatePeakAndMaxR` on one record:
backfill `openedAt`, seed the peak with the mark when unset, push the peak in
the favourable direction, and raise `maxR`. -/
def updatePeakAndMaxRInfo (side : String) (mark currentR : ℚ) (now : ℤ)
    (info : riskStageInfo) : riskStageInfo :=
  let info := if info.openedAt = 0 then { info with openedAt := now } else info
  let info := if info.peakPrice = 0 then { info with peakPrice := mark } else info
  let info :=
    if side = "long" then
      if mark > info.peakPrice then { info with peakPrice := mark } else info
    else
      if mark < info.peakPrice then { info with peakPrice := mark } else info
  if currentR > info.maxR then { info with maxR := currentR } else info

/-- Embedding of `riskRegistry.updatePeakAndMaxR` (risk_registry.go lines
79–114): absent keys are left untouched. -/
def regUpdatePeakAndMaxR (reg : Registry) (pos : Snapshot) (key : String)
    (currentR : ℚ) (now : ℤ) : Registry :=
  match reg.lookup key with
  | none => reg
  | some info => mapSet reg key (updatePeakAndMaxRInfo pos.side pos.markPrice currentR now info)

/-- Embedding of `riskRegistry.recordStopLoss` (risk_registry.go lines
66–77): ignores non-positive stops and absent keys. -/
def regRecordStopLoss (reg : Registry) (key : String) (stop : ℚ) : Registry :=
  if stop ≤ 0 then reg
  else
    match reg.lookup key with
    | none => reg
    | some info =>
      mapSet reg key { info with lastRecordedStop := stop, hasRecordedStop := true }

/-! ### Monitor step (processPositionSnapshot / updateStopLoss) -/

/-- What `updateStopLoss` does with the adapter: emergency market close,
no call at all, or an `ExecuteStopLoss` submission carrying the stop. -/
inductive StopAction where
  | emergencyClose
  | skip
  | submit (stop : ℚ)
deriving Repr, DecidableEq

/-- Embedding of the decision logic of `TrailingStopMonitor.updateStopLoss`
(atr_calculator.go lines 639–755).  `liveQuery` stands for the
`getCurrentStopLoss` call made when no existing stop was passed in; on its
error Go keeps the zero values `(0, false)`.  The trigger check runs first:
mark at or through the new stop means emergency close.  Otherwise the stop is
submitted only when it strictly improves on the known current stop (or when
no current stop is known). -/
def updateStopLossAction (side : String) (newStopLoss currentPrice existingStop : ℚ)
    (hasExisting : Bool) (liveQuery : Except Unit (ℚ × Bool)) : StopAction :=
  let stopLossTriggered :=
    if side = "long" then currentPrice ≤ newStopLoss else currentPrice ≥ newStopLoss
  if stopLossTriggered then .emergencyClose
  else
    let info :=
      if hasExisting then (existingStop, true)
      else match liveQuery with
        | .ok r => r
        | .error _ => (0, false)
    if info.2 then
      let improved :=
        if side = "long" then newStopLoss > info.1 else newStopLoss < info.1
      if improved then .submit newStopLoss else .skip
    else .submit newStopLoss

/-- Net effect of one `processPositionSnapshot` call on the adapter. -/
inductive StepOutcome where
  | skipped
  | emergencyClosed
  | submitted (stop : ℚ)
deriving Repr, DecidableEq

/-- Trace of one `processPositionSnapshot` call: the adapter outcome, the
`allowInitialStop` flag handed to `isStopLossValid` (none when validation was
never reached), and the registry afterwards. -/
structure StepResult where
  outcome : StepOutcome
  allowUsed : Option Bool
  registry : Registry

/-- The previous-stop adoption of `processPositionSnapshot` (atr_calculator.go
lines 515–538): adopt the exchange's stop when the query found one, else fall
back to a recorded positive stop, else to the initial stop with
`hasPrevStop = false`.  (A query error behaves like "not found" for the
adopted value.) -/
def adoptPrevStop (info : riskStageInfo) (stopQuery : Except Unit (ℚ × Bool)) :
    ℚ × Bool :=
  match stopQuery with
  | .ok r =>
    if r.2 then (r.1, true)
    else if info.hasRecordedStop ∧ info.lastRecordedStop > 0 then
      (info.lastRecordedStop, true)
    else (info.initialStop, false)
  | .error _ =>
    if info.hasRecordedStop ∧ info.lastRecordedStop > 0 then
      (info.lastRecordedStop, true)
    else (info.initialStop, false)

/-- The registry side effect of the adoption: an exchange stop that was found
is recorded (`recordStopLoss`) before anything else happens. -/
def adoptRegistry (reg : Registry) (key : String)
    (stopQuery : Except Unit (ℚ × Bool)) : Registry :=
  match stopQuery with
  | .ok r => if r.2 then regRecordStopLoss reg key r.1 else reg
  | .error _ => reg

/-- The tail of `processPositionSnapshot` after the calculator returned
`newStopLoss` (atr_calculator.go lines 551–584): the ε no-change guard, the
`allowInitialStop` flag, validation with its emergency-close branch, and the
delegation to `updateStopLoss`. -/
def stepValidateAndUpdate (pos : Snapshot) (reg2 : Registry)
    (initialStop newStopLoss prevStop : ℚ) (hasPrevStop : Bool)
    (liveQuery : Except Unit (ℚ × Bool)) : StepResult :=
  if hasPrevStop ∧ floatsAlmostEqual newStopLoss prevStop then ⟨.skipped, none, reg2⟩
  else
    let allow := (!hasPrevStop) && floatsAlmostEqual newStopLoss initialStop
    let v := isStopLossValid pos.side pos.entryPrice newStopLoss pos.markPrice allow
    if v.2 then ⟨.emergencyClosed, some allow, mapRemove reg2 pos.key⟩
    else if v.1 = false then ⟨.skipped, some allow, reg2⟩
    else
      match updateStopLossAction pos.side newStopLoss pos.markPrice prevStop hasPrevStop liveQuery with
      | .emergencyClose => ⟨.emergencyClosed, some allow, mapRemove reg2 pos.key⟩
      | .skip => ⟨.skipped, some allow, reg2⟩
      | .submit s => ⟨.submitted s, some allow, regRecordStopLoss reg2 pos.key s⟩

/-- The middle of `processPositionSnapshot` once the peak/max-R update has
run: adoption, the calculator call (errors skip), and the tail. -/
def processAdopted (cfg : Config) (fetchATR : ATRFetcher) (pos : Snapshot)
    (reg1 : Registry) (riskInfo : riskStageInfo)
    (stopQuery liveQuery : Except Unit (ℚ × Bool)) : StepResult :=
  let pv := adoptPrevStop riskInfo stopQuery
  let reg2 := adoptRegistry reg1 pos.key stopQuery
  match Calculate cfg fetchATR pos
      ⟨riskInfo.initialStop, riskInfo.peakPrice, riskInfo.maxR⟩ pv.1 pv.2 with
  | .error _ => ⟨.skipped, none, reg2⟩
  | .ok newStopLoss =>
    stepValidateAndUpdate pos reg2 riskInfo.initialStop newStopLoss pv.1 pv.2 liveQuery

/-- The monitor's current-R computation (atr_calculator.go lines 500–505). -/
def stepCurrentR (pos : Snapshot) (riskInfo0 : riskStageInfo) : ℚ :=
  if pos.side = "long" then
    (pos.markPrice - pos.entryPrice) / |pos.entryPrice - riskInfo0.initialStop|
  else
    (pos.entryPrice - pos.markPrice) / |pos.entryPrice - riskInfo0.initialStop|

/-- The registry after the peak/max-R update of one step. -/
def stepRegistry (pos : Snapshot) (reg : Registry) (riskInfo0 : riskStageInfo)
    (now : ℤ) : Registry :=
  regUpdatePeakAndMaxR reg pos pos.key (stepCurrentR pos riskInfo0) now

/-- The re-read risk state after the peak/max-R update (the Go code takes a
fresh snapshot; absent keys fall back to the stale copy). -/
def stepRiskInfo (pos : Snapshot) (reg : Registry) (riskInfo0 : riskStageInfo)
    (now : ℤ) : riskStageInfo :=
  ((stepRegistry pos reg riskInfo0 now).lookup pos.key).getD riskInfo0

/-- `processPositionSnapshot` once a risk state was found for the key: the
zero-risk-distance guard, the current-R computation, the registry peak/max-R
update with re-snapshot, then `processAdopted`. -/
def processWithRisk (cfg : Config) (fetchATR : ATRFetcher) (pos : Snapshot)
    (reg : Registry) (riskInfo0 : riskStageInfo)
    (stopQuery liveQuery : Except Unit (ℚ × Bool)) (now : ℤ) : StepResult :=
  if |pos.entryPrice - riskInfo0.initialStop| = 0 then ⟨.skipped, none, reg⟩
  else
    processAdopted cfg fetchATR pos (stepRegistry pos reg riskInfo0 now)
      (stepRiskInfo pos reg riskInfo0 now) stopQuery liveQuery

/-- Embedding of `TrailingStopMonitor.processPositionSnapshot`
(atr_calculator.go lines 467–584).  `stopQuery` is the result of the
`getCurrentStopLoss` call in step 3 (`(price, found)` or an error);
`liveQuery` is the re-query inside `updateStopLoss`.  A successful
submission records the stop in the registry; an emergency close clears the
position, and a failed close (an adapter error) is not distinguished — the
branch taken is what the claims speak about. -/
def processPositionSnapshot (cfg : Config) (fetchATR : ATRFetcher)
    (pos : Snapshot) (reg : Registry)
    (stopQuery liveQuery : Except Unit (ℚ × Bool)) (now : ℤ) : StepResult :=
  if pos.quantity = 0 then ⟨.skipped, none, reg⟩
  else
    match reg.lookup pos.key with
    | none => ⟨.skipped, none, reg⟩
    | some riskInfo0 =>
      processWithRisk cfg fetchATR pos reg riskInfo0 stopQuery liveQuery now

/-! ### Shared manager (shared.go) -/

/-- A `sharedEntry`: the monitor, its currently bound owner, and the owner
set (`map[string]Owner`, keyed by trader id — ids suffice in the model).
`eid` models the identity of the Go `*sharedEntry` pointer, which
`SharedMonitor.Stop` compares against its own reference. -/
structure SharedEntry where
  eid : ℕ
  monitorId : ℕ
  boundOwner : String
  owners : List String
deriving Repr, DecidableEq

/-- State of a `Manager` plus the monitors it has created: the
`account_key → entry` map, a fresh-id counter, and the set of monitors whose
`Stop` has been called. -/
structure ManagerState where
  entries : List (String × SharedEntry)
  nextId : ℕ
  stoppedMonitors : List ℕ
deriving Repr, DecidableEq

/-- Go map-insert of an owner id into the owner set (`entry.owners[id] = o`):
a no-op on the key set when the id is already present. -/
def insertOwner (owners : List String) (traderId : String) : List String :=
  if traderId ∈ owners then owners else traderId :: owners

/-- A `SharedMonitor` handle: account key, owner id, and the entry reference
(`none` models the nil entry of a stopped, inert handle). -/
structure SharedHandle where
  accountKey : String
  ownerId : String
  entry : Option ℕ
deriving Repr, DecidableEq

/-- Embedding of `Manager.Acquire` (shared.go lines 38–77): an empty account
key yields no handle; an existing entry gains the caller as owner and has the
monitor rebound to it; otherwise a new monitor and entry are created.  The
returned handle carries the entry's identity. -/
def acquire (st : ManagerState) (accountKey traderId : String) :
    ManagerState × Option SharedHandle :=
  if accountKey = "" then (st, none)
  else
    match st.entries.lookup accountKey with
    | some e =>
      let e' := { e with owners := insertOwner e.owners traderId, boundOwner := traderId }
      ({ st with entries := mapSet st.entries accountKey e' },
       some ⟨accountKey, traderId, some e.eid⟩)
    | none =>
      let e : SharedEntry :=
        { eid := st.nextId
          monitorId := st.nextId
          boundOwner := traderId
          owners := [traderId] }
      ({ st with entries := mapSet st.entries accountKey e, nextId := st.nextId + 1 },
       some ⟨accountKey, traderId, some e.eid⟩)

/-- Embedding of `SharedMonitor.Stop` (shared.go lines 88–124): an inert
handle does nothing; otherwise, when the map still holds this very entry, the
owner is removed — if the owner set empties, the entry is dropped and its
monitor stopped, else the head of the remaining owners is rebound (Go picks
an arbitrary one from the map).  The handle's entry reference is nil-ed in
every case, making it inert. -/
def handleStop (st : ManagerState) (h : SharedHandle) :
    ManagerState × SharedHandle :=
  match h.entry with
  | none => (st, h)
  | some eid =>
    let inert := { h with entry := none }
    match st.entries.lookup h.accountKey with
    | none => (st, inert)
    | some e =>
      if e.eid = eid then
        let owners' := e.owners.erase h.ownerId
        if owners' = [] then
          ({ st with
              entries := mapRemove st.entries h.accountKey
              stoppedMonitors := e.monitorId :: st.stoppedMonitors }, inert)
        else
          ({ st with
              entries := mapSet st.entries h.accountKey
                { e with owners := owners', boundOwner := owners'.headD "" } }, inert)
      else (st, inert)

/-- The lifetime invariant of the shared manager: every entry in the map has
a non-empty owner set. -/
def ownersNonempty (st : ManagerState) : Prop :=
  ∀ k e, st.entries.lookup k = some e → e.owners ≠ []

/-! ### Theorems -/

/-- C5: the stop validity predicate, given (side, entry, new_stop, mark,
allow_initial_stop), returns for a long position (false, false) when
allow_initial_stop = false and new_stop < entry, (false, true) when
new_stop ≥ mark, and (true, false) otherwise; for a short position the
mirror holds.  Formalised as: the embedded `isStopLossValid` coincides with
the cascade written from the claim's words. -/
theorem c5_validity_refines_spec (side : String) (entry newStop mark : ℚ)
    (allow : Bool) :
    isStopLossValid side entry newStop mark allow =
      stopValiditySpec side entry newStop mark allow := by
  cases allow <;> simp [isStopLossValid, stopValiditySpec]

/-- Helper: looking up the key just written by `mapSet` returns the new
value. -/
theorem lookup_mapSet_self {α : Type} (l : List (String × α)) (k : String)
    (v : α) : (mapSet l k v).lookup k = some v := by
  simp [mapSet, List.lookup]

/-- C10: `register_initial_stop(symbol, side, stop)` with `stop > 0` and a
non-empty symbol replaces the risk state for the position key wholesale:
afterwards `initial_stop = stop`, `opened_at` is the registration time, and
`peak_price`, `max_r`, `last_recorded_stop`, `has_recorded_stop` are reset to
zero / false, regardless of any pre-existing state at that key. -/
theorem c10_register_replaces_wholesale (reg : Registry) (symbol side : String)
    (stop : ℚ) (now : ℤ) (hstop : 0 < stop) (hsym : symbol ≠ "") :
    (monitorRegisterInitialStop reg symbol side stop now).lookup
        (composePositionKey symbol side) =
      some { initialStop := stop, peakPrice := 0, maxR := 0,
             lastRecordedStop := 0, hasRecordedStop := false, openedAt := now } := by
  unfold monitorRegisterInitialStop registerInitialStop
  rw [if_neg (by push_neg; exact ⟨hsym, hstop⟩)]
  exact lookup_mapSet_self ..

/-- Witness for C10 at a concrete input whose key already holds a fully
populated state. -/
theorem c10_register_replaces_wholesale_witness :
    (monitorRegisterInitialStop
        [("BTCUSDT_long",
          { initialStop := 95, peakPrice := 105, maxR := 2,
            lastRecordedStop := 99, hasRecordedStop := true, openedAt := 5 })]
        "BTCUSDT" "long" 98 77).lookup (composePositionKey "BTCUSDT" "long") =
      some { initialStop := 98, peakPrice := 0, maxR := 0,
             lastRecordedStop := 0, hasRecordedStop := false, openedAt := 77 } :=
  c10_register_replaces_wholesale _ "BTCUSDT" "long" 98 77 (by norm_num) (by decide)

/-- Helper: a `.submit` result of `updateStopLossAction` carries the new stop
itself and implies that the trigger check passed: strictly below the mark for
long, strictly above for short. -/
theorem updateStopLossAction_submit_shape (side : String)
    (ns cp ex : ℚ) (he : Bool) (lq : Except Unit (ℚ × Bool)) (s : ℚ)
    (hs : updateStopLossAction side ns cp ex he lq = .submit s) :
    s = ns ∧ (side = "long" → ns < cp) ∧ (side ≠ "long" → cp < ns) := by
  simp only [updateStopLossAction] at hs
  by_cases hside : side = "long"
  · simp only [hside, if_true] at hs
    by_cases htrig : cp ≤ ns
    · rw [if_pos htrig] at hs; cases hs
    · rw [if_neg htrig] at hs
      have hns : s = ns := by
        repeat' split at hs
        all_goals first
          | exact (StopAction.submit.inj hs).symm
          | cases hs
      exact ⟨hns, fun _ => not_le.mp htrig, fun hne => absurd hside hne⟩
  · simp only [if_neg hside] at hs
    by_cases htrig : ns ≤ cp
    · rw [if_pos htrig] at hs; cases hs
    · rw [if_neg htrig] at hs
      have hns : s = ns := by
        repeat' split at hs
        all_goals first
          | exact (StopAction.submit.inj hs).symm
          | cases hs
      exact ⟨hns, fun hl => absurd hl hside, fun _ => not_le.mp htrig⟩

/-- Helper: when the mark has already crossed the new stop,
`updateStopLossAction` takes the emergency-close branch. -/
theorem updateStopLossAction_close_when_triggered (side : String)
    (ns cp ex : ℚ) (he : Bool) (lq : Except Unit (ℚ × Bool))
    (h : (side = "long" ∧ cp ≤ ns) ∨ (side ≠ "long" ∧ ns ≤ cp)) :
    updateStopLossAction side ns cp ex he lq = .emergencyClose := by
  rcases h with ⟨hside, hle⟩ | ⟨hside, hle⟩
  · simp [updateStopLossAction, hside, hle]
  · simp [updateStopLossAction, hside, hle]

/-- Helper: a submission produced by the validation/update tail of a step
satisfies the no-self-trigger bound against the snapshot's mark price. -/
theorem stepValidateAndUpdate_submit_bound (pos : Snapshot) (reg2 : Registry)
    (init ns prev : ℚ) (hp : Bool) (lq : Except Unit (ℚ × Bool)) (s : ℚ)
    (h : (stepValidateAndUpdate pos reg2 init ns prev hp lq).outcome = .submitted s) :
    (pos.side = "long" → s < pos.markPrice) ∧
      (pos.side ≠ "long" → pos.markPrice < s) := by
  simp only [stepValidateAndUpdate] at h
  repeat' split at h
  all_goals try cases h
  all_goals
    rename_i heq
    obtain ⟨hs, hl, hr⟩ := updateStopLossAction_submit_shape _ _ _ _ _ _ _ heq
    rw [hs]
    exact ⟨hl, hr⟩

/-- Helper: any submission produced by a whole `processPositionSnapshot` step
satisfies the no-self-trigger bound against the snapshot's mark price. -/
theorem processPositionSnapshot_submit_bound (cfg : Config) (f : ATRFetcher)
    (pos : Snapshot) (reg : Registry) (sq lq : Except Unit (ℚ × Bool))
    (now : ℤ) (s : ℚ)
    (h : (processPositionSnapshot cfg f pos reg sq lq now).outcome = .submitted s) :
    (pos.side = "long" → s < pos.markPrice) ∧
      (pos.side ≠ "long" → pos.markPrice < s) := by
  simp only [processPositionSnapshot, processWithRisk, processAdopted] at h
  repeat' split at h
  all_goals try cases h
  all_goals exact stepValidateAndUpdate_submit_bound _ _ _ _ _ _ _ _ h

/-- C4: every stop price passed to the owner's `execute_stop_loss` satisfies
`new_stop < mark` for a long position and `new_stop > mark` for a short
position at submission time (re-checked inside `updateStopLoss` just before
the call); whenever that condition fails the monitor takes the emergency
market-close branch instead of submitting a stop order.  Stated both for the
`updateStopLoss` decision logic and for a whole monitor step. -/
theorem c4_no_self_trigger (side : String) (ns cp ex : ℚ) (he : Bool)
    (lq : Except Unit (ℚ × Bool)) (cfg : Config) (f : ATRFetcher)
    (pos : Snapshot) (reg : Registry) (sq lq2 : Except Unit (ℚ × Bool))
    (now : ℤ) (s : ℚ) :
    (updateStopLossAction side ns cp ex he lq = .submit s →
        (side = "long" → s < cp) ∧ (side ≠ "long" → cp < s)) ∧
    ((side = "long" ∧ cp ≤ ns) ∨ (side ≠ "long" ∧ ns ≤ cp) →
        updateStopLossAction side ns cp ex he lq = .emergencyClose) ∧
    ((processPositionSnapshot cfg f pos reg sq lq2 now).outcome = .submitted s →
        (pos.side = "long" → s < pos.markPrice) ∧
          (pos.side ≠ "long" → pos.markPrice < s)) := by
  refine ⟨fun hs => ?_, fun h => updateStopLossAction_close_when_triggered _ _ _ _ _ _ h,
    fun h => processPositionSnapshot_submit_bound _ _ _ _ _ _ _ _ h⟩
  obtain ⟨h1, h2, h3⟩ := updateStopLossAction_submit_shape _ _ _ _ _ _ _ hs
  subst h1
  exact ⟨h2, h3⟩

/-- Witness for C4 at concrete inputs: a long stop at or above the mark goes
to the emergency-close branch. -/
theorem c4_no_self_trigger_witness :
    updateStopLossAction "long" 102 101 98 true (.error ()) = .emergencyClose :=
  (c4_no_self_trigger "long" 102 101 98 true (.error ())
      defaultConfig (fun _ _ => .ok 1)
      ⟨"BTCUSDT", "long", 100, 101, 1, 5⟩ [] (.error ()) (.error ()) 0 0).2.1
    (.inl ⟨rfl, by norm_num⟩)

/-! ### Views of the calculator's internals, used to state the theorems -/

/-- The asset class the calculator resolves for a snapshot. -/
def calcAssetClass (cfg : Config) (pos : Snapshot) : String :=
  cfg.assetClassForSymbol pos.symbol

/-- The risk distance `D = |entry − initial_stop|` used by the calculator. -/
def calcRiskDistance (pos : Snapshot) (risk : RiskSnapshot) : ℚ :=
  |pos.entryPrice - risk.initialStop|

/-- The current R-multiple the calculator derives. -/
def calcCurrentR (pos : Snapshot) (risk : RiskSnapshot) : ℚ :=
  currentRMultiple pos.side pos.entryPrice pos.markPrice (calcRiskDistance pos risk)

/-- The base stop `B`: the previous stop when one was adopted, else the
initial stop. -/
def calcBaseStop (risk : RiskSnapshot) (prevStop : ℚ) (hasPrev : Bool) : ℚ :=
  if hasPrev then prevStop else risk.initialStop

/-- The locked R the calculator uses for S1. -/
def calcLockedR (cfg : Config) (pos : Snapshot) (risk : RiskSnapshot) : ℚ :=
  lockedRFor (cfg.assetProfile (calcAssetClass cfg pos)) risk.maxR
    (calcCurrentR pos risk)
    (cfg.trailingParams (calcAssetClass cfg pos) (calcCurrentR pos risk)).1

/-- The regime-adjusted ATR multiplier the calculator uses for S2. -/
def calcAtrMult (cfg : Config) (pos : Snapshot) (risk : RiskSnapshot)
    (atr : ℚ) : ℚ :=
  cfg.adjustATRMultiplier (calcAssetClass cfg pos)
    (cfg.trailingParams (calcAssetClass cfg pos) (calcCurrentR pos risk)).2.1
    (atr / pos.markPrice)

/-- S1 (R-lock floor) for a long position, as the calculator computes it. -/
def calcS1Long (cfg : Config) (pos : Snapshot) (risk : RiskSnapshot) : ℚ :=
  s1Long pos.entryPrice (calcLockedR cfg pos risk) (calcRiskDistance pos risk)

/-- S2 (ATR trail from peak) for a long position. -/
def calcS2Long (cfg : Config) (pos : Snapshot) (risk : RiskSnapshot)
    (atr : ℚ) : ℚ :=
  s2Long risk.peakPrice pos.markPrice atr (calcAtrMult cfg pos risk atr)

/-- S1 (R-lock floor) for a short position. -/
def calcS1Short (cfg : Config) (pos : Snapshot) (risk : RiskSnapshot) : ℚ :=
  s1Short pos.entryPrice (calcLockedR cfg pos risk) (calcRiskDistance pos risk)

/-- S2 (ATR trail from peak) for a short position. -/
def calcS2Short (cfg : Config) (pos : Snapshot) (risk : RiskSnapshot)
    (atr : ℚ) : ℚ :=
  s2Short risk.peakPrice pos.markPrice atr (calcAtrMult cfg pos risk atr)

/-- `tightenStopLong` applied to `max base m` is `max base m`. -/
theorem tightenStopLong_max (b m : ℚ) : tightenStopLong b (max b m) = max b m := by
  unfold tightenStopLong
  by_cases h : max b m > b
  · rw [if_pos h]
  · rw [if_neg h]
    exact (le_antisymm (not_lt.mp h) (le_max_left b m)).symm

/-- `tightenStopShort` applied to `min base m` is `min base m`. -/
theorem tightenStopShort_min (b m : ℚ) : tightenStopShort b (min b m) = min b m := by
  unfold tightenStopShort
  by_cases h : min b m < b
  · rw [if_pos h]
  · rw [if_neg h]
    exact (le_antisymm (min_le_left b m) (not_lt.mp h)).symm

/-- Characterisation of the calculator in phase 1+ for a long position: the
result is `max(B, max(S1, S2))`. -/
theorem Calculate_phase1_long (cfg : Config) (f : ATRFetcher) (pos : Snapshot)
    (risk : RiskSnapshot) (prevStop : ℚ) (hasPrev : Bool) (atr : ℚ)
    (hside : pos.side = "long")
    (hD : ¬ calcRiskDistance pos risk ≤ 0)
    (hphase : ¬ calcCurrentR pos risk <
        cfg.phaseStartBreakevenForClass (calcAssetClass cfg pos))
    (hfetch : f pos.symbol (cfg.atrPeriodForClass (calcAssetClass cfg pos)) = .ok atr)
    (hatr : ¬ atr ≤ 0) :
    Calculate cfg f pos risk prevStop hasPrev =
      .ok (max (calcBaseStop risk prevStop hasPrev)
        (max (calcS1Long cfg pos risk) (calcS2Long cfg pos risk atr))) := by
  simp only [calcRiskDistance] at hD
  simp only [calcCurrentR, calcAssetClass, calcRiskDistance] at hphase
  simp only [calcAssetClass] at hfetch
  simp only [Calculate]
  rw [if_neg hD, if_neg hphase, hfetch]
  simp only [calculateDynamicStopLong]
  rw [if_neg hatr, if_pos hside, if_neg hD, tightenStopLong_max]
  simp only [calcBaseStop, calcS1Long, calcS2Long, calcLockedR, calcAtrMult,
    calcAssetClass, calcCurrentR, calcRiskDistance]

/-- Characterisation of the calculator in phase 1+ for a short position: the
result is `min(B, min(S1, S2))`. -/
theorem Calculate_phase1_short (cfg : Config) (f : ATRFetcher) (pos : Snapshot)
    (risk : RiskSnapshot) (prevStop : ℚ) (hasPrev : Bool) (atr : ℚ)
    (hside : pos.side ≠ "long")
    (hD : ¬ calcRiskDistance pos risk ≤ 0)
    (hphase : ¬ calcCurrentR pos risk <
        cfg.phaseStartBreakevenForClass (calcAssetClass cfg pos))
    (hfetch : f pos.symbol (cfg.atrPeriodForClass (calcAssetClass cfg pos)) = .ok atr)
    (hatr : ¬ atr ≤ 0) :
    Calculate cfg f pos risk prevStop hasPrev =
      .ok (min (calcBaseStop risk prevStop hasPrev)
        (min (calcS1Short cfg pos risk) (calcS2Short cfg pos risk atr))) := by
  simp only [calcRiskDistance] at hD
  simp only [calcCurrentR, calcAssetClass, calcRiskDistance] at hphase
  simp only [calcAssetClass] at hfetch
  simp only [Calculate]
  rw [if_neg hD, if_neg hphase, hfetch]
  simp only [calculateDynamicStopShort]
  rw [if_neg hatr, if_neg hside, if_neg hD, tightenStopShort_min]
  simp only [calcBaseStop, calcS1Short, calcS2Short, calcLockedR, calcAtrMult,
    calcAssetClass, calcCurrentR, calcRiskDistance]

/-- C3: in every phase-1+ calculation the returned stop equals
`max(B, S1, S2)` for a long position and `min(B, S1, S2)` for a short
position; in particular the calculator never returns a stop looser than the
base stop `B`. -/
theorem c3_combined_stop_is_tightest (cfg : Config) (f : ATRFetcher)
    (pos : Snapshot) (risk : RiskSnapshot) (prevStop : ℚ) (hasPrev : Bool)
    (atr S : ℚ)
    (hD : ¬ calcRiskDistance pos risk ≤ 0)
    (hphase : ¬ calcCurrentR pos risk <
        cfg.phaseStartBreakevenForClass (calcAssetClass cfg pos))
    (hfetch : f pos.symbol (cfg.atrPeriodForClass (calcAssetClass cfg pos)) = .ok atr)
    (hatr : ¬ atr ≤ 0)
    (hok : Calculate cfg f pos risk prevStop hasPrev = .ok S) :
    (pos.side = "long" →
        S = max (calcBaseStop risk prevStop hasPrev)
              (max (calcS1Long cfg pos risk) (calcS2Long cfg pos risk atr)) ∧
        calcBaseStop risk prevStop hasPrev ≤ S) ∧
    (pos.side ≠ "long" →
        S = min (calcBaseStop risk prevStop hasPrev)
              (min (calcS1Short cfg pos risk) (calcS2Short cfg pos risk atr)) ∧
        S ≤ calcBaseStop risk prevStop hasPrev) := by
  constructor
  · intro hside
    rw [Calculate_phase1_long cfg f pos risk prevStop hasPrev atr hside hD hphase hfetch hatr] at hok
    have h := (Except.ok.inj hok).symm
    exact ⟨h, h ▸ le_max_left _ _⟩
  · intro hside
    rw [Calculate_phase1_short cfg f pos risk prevStop hasPrev atr hside hD hphase hfetch hatr] at hok
    have h := (Except.ok.inj hok).symm
    exact ⟨h, h ▸ min_le_left _ _⟩

/-- The concrete long snapshot used in witnesses and counterexamples:
entry 100, mark 103, initial stop 98 (D = 2, current R = 1.5 on the default
`trend_alt` profile). -/
def posL : Snapshot := ⟨"SOLUSDT", "long", 100, 103, 1, 5⟩

/-- Risk view for `posL`: initial stop 98, peak 103, max R 1.5. -/
def riskL : RiskSnapshot := ⟨98, 103, 3/2⟩

/-- Evaluation fact: `posL` resolves to the `trend_alt` asset class. -/
theorem posL_class : calcAssetClass defaultConfig posL = "trend_alt" := by decide

/-- Evaluation fact: the default config's `trend_alt` profile. -/
theorem defaultConfig_trendAlt :
    defaultConfig.assetProfile "trend_alt" = some trendAltProfile := rfl

/-- Evaluation fact: risk distance of `posL` is nonzero. -/
theorem posL_riskDistance : ¬ calcRiskDistance posL riskL ≤ 0 := by
  norm_num [calcRiskDistance, posL, riskL]

/-- Evaluation fact: `posL` is in phase 1+ (current R = 1.5 ≥ 0.8). -/
theorem posL_phase1 : ¬ calcCurrentR posL riskL <
    defaultConfig.phaseStartBreakevenForClass (calcAssetClass defaultConfig posL) := by
  rw [posL_class]
  norm_num [calcCurrentR, currentRMultiple, calcRiskDistance, posL, riskL,
    Config.phaseStartBreakevenForClass, defaultConfig_trendAlt, trendAltProfile]

/-- Evaluation fact: current R at `posL` is 1.5. -/
theorem posL_currentR : calcCurrentR posL riskL = 3/2 := by
  norm_num [calcCurrentR, currentRMultiple, calcRiskDistance, posL, riskL]

/-- Evaluation fact: the `trend_alt` band for R = 1.5 is the second one
(lock 0.6, ATR multiplier 2). -/
theorem trendAlt_params : defaultConfig.trailingParams "trend_alt" (3/2) =
    (3/5, 2, "📈 山寨主升浪") := by
  simp only [Config.trailingParams, defaultConfig_trendAlt, findBand, trendAltProfile]
  rw [if_neg (by simp)]
  norm_num

/-- Evaluation fact: the code's locked R at `posL` is the constant floor 1
(`max(1.5·0.6, 1) = 1`; the alpha lock `min(1.5·0.6, 1.5) = 0.9` does not
exceed it). -/
theorem trendAlt_lockedR : lockedRFor (some trendAltProfile) (3/2) (3/2) (3/5) = 1 := by
  simp only [lockedRFor, trendAltProfile]
  norm_num

/-- Evaluation fact: the regime adjustment at regime volatility 1/103 leaves
the multiplier 2 unchanged (low regime with multiplier 1). -/
theorem trendAlt_adjust : defaultConfig.adjustATRMultiplier "trend_alt" 2 (1/103) = 2 := by
  simp only [Config.adjustATRMultiplier, defaultConfig_trendAlt, trendAltProfile]
  norm_num

/-- Evaluation fact: S1 at `posL` is 102 (entry 100 + 1R·2). -/
theorem posL_s1 : calcS1Long defaultConfig posL riskL = 102 := by
  simp only [calcS1Long, calcLockedR, posL_class, posL_currentR,
    defaultConfig_trendAlt, trendAlt_params, calcRiskDistance]
  simp only [posL, riskL]
  rw [trendAlt_lockedR]
  norm_num [s1Long]

/-- Evaluation fact: S2 at `posL` with ATR 1 is 101 (peak 103 − 2·1). -/
theorem posL_s2 : calcS2Long defaultConfig posL riskL 1 = 101 := by
  simp only [calcS2Long, calcAtrMult, posL_class, posL_currentR, trendAlt_params]
  simp only [posL, riskL]
  rw [trendAlt_adjust]
  norm_num [s2Long]

/-- Evaluation fact: the calculator's result at `posL` with ATR 1 and
previous stop 98 is 102. -/
theorem posL_calculate :
    Calculate defaultConfig (fun _ _ => .ok 1) posL riskL 98 true = .ok 102 := by
  rw [Calculate_phase1_long defaultConfig (fun _ _ => .ok 1) posL riskL 98 true 1
    rfl posL_riskDistance posL_phase1 rfl (by norm_num)]
  rw [posL_s1, posL_s2]
  norm_num [calcBaseStop]

/-- Witness for C3 at `posL` with ATR 1 and previous stop 98: the result 102
is `max(B, S1, S2)` and not looser than 98. -/
theorem c3_combined_stop_is_tightest_witness :
    (102 : ℚ) = max (calcBaseStop riskL 98 true)
        (max (calcS1Long defaultConfig posL riskL)
          (calcS2Long defaultConfig posL riskL 1)) ∧
      calcBaseStop riskL 98 true ≤ (102 : ℚ) :=
  (c3_combined_stop_is_tightest defaultConfig (fun _ _ => .ok 1) posL riskL
      98 true 1 102 posL_riskDistance posL_phase1 rfl (by norm_num)
      posL_calculate).1 rfl

/-- Helper: the code's locked R is always at least the constant 1 —
`lockedR = max(currentR·lockRatio, 1)`, and the alpha lock only ever raises
it. -/
theorem one_le_lockedRFor (profile : Option AssetProfile)
    (maxR currentR lockRatio : ℚ) :
    1 ≤ lockedRFor profile maxR currentR lockRatio := by
  cases profile with
  | none => simp only [lockedRFor]; exact le_max_right _ _
  | some p =>
    simp only [lockedRFor]
    by_cases hc : p.maxRLockAlpha > 0 ∧ maxR > 0
    · rw [if_pos hc]
      by_cases hgt : (if maxR * p.maxRLockAlpha > currentR then currentR
          else maxR * p.maxRLockAlpha) > max (currentR * lockRatio) 1
      · rw [if_pos hgt]
        exact le_of_lt (lt_of_le_of_lt (le_max_right (currentR * lockRatio) 1) hgt)
      · rw [if_neg hgt]
        exact le_max_right _ _
    · rw [if_neg hc]
      exact le_max_right _ _

/-- The locked-R formula exactly as the claim states it:
`locked_r = max(current_r·lock_ratio, min_locked_r)` with `min_locked_r`
resolved per asset class, possibly raised by the alpha lock
`min(max_r·max_r_lock_alpha, current_r)`.  (Definition written from the
claim's words, for comparison with the code's `lockedRFor`.) -/
def lockedRSpecClaim (cfg : Config) (assetClass : String)
    (maxR currentR lockRatio : ℚ) : ℚ :=
  let lockedR := max (currentR * lockRatio) (cfg.minLockedRForClass assetClass)
  match cfg.assetProfile assetClass with
  | none => lockedR
  | some p =>
    if p.maxRLockAlpha > 0 ∧ maxR > 0 then
      let alphaLock := min (maxR * p.maxRLockAlpha) currentR
      if alphaLock > lockedR then alphaLock else lockedR
    else lockedR

/-- C1 (counterexample): at `posL` (entry 100, mark 103, initial stop 98,
`trend_alt`, current R = max R = 1.5, lock ratio 0.6, min locked R 0.2) the
claim is in scope (phase 1+, positive risk distance), yet the code's locked R
is the constant floor 1 while the claimed formula
`max(current_r·lock_ratio, min_locked_r)` (with its alpha raise) gives 0.9;
accordingly the calculator returns 102 where the claim's formula yields
101.8. -/
theorem c1_rlock_counterexample :
    (¬ calcCurrentR posL riskL <
        defaultConfig.phaseStartBreakevenForClass (calcAssetClass defaultConfig posL)) ∧
    0 < calcRiskDistance posL riskL ∧
    calcLockedR defaultConfig posL riskL = 1 ∧
    lockedRSpecClaim defaultConfig "trend_alt" riskL.maxR (3/2) (3/5) = 9/10 ∧
    calcLockedR defaultConfig posL riskL ≠
      lockedRSpecClaim defaultConfig "trend_alt" riskL.maxR (3/2) (3/5) ∧
    Calculate defaultConfig (fun _ _ => .ok 1) posL riskL 98 true = .ok 102 ∧
    max (98 : ℚ) (max (s1Long 100 (9/10) 2) (calcS2Long defaultConfig posL riskL 1)) = 509/5 ∧
    (102 : ℚ) ≠ 509/5 := by
  have hlock : calcLockedR defaultConfig posL riskL = 1 := by
    simp only [calcLockedR, posL_class, posL_currentR, defaultConfig_trendAlt,
      trendAlt_params]
    simp only [riskL]
    exact trendAlt_lockedR
  have hspec : lockedRSpecClaim defaultConfig "trend_alt" riskL.maxR (3/2) (3/5) = 9/10 := by
    simp only [lockedRSpecClaim, defaultConfig_trendAlt, trendAltProfile, riskL,
      Config.minLockedRForClass]
    norm_num
  refine ⟨posL_phase1, by norm_num [calcRiskDistance, posL, riskL], hlock, hspec,
    ?_, posL_calculate, ?_, by norm_num⟩
  · rw [hlock, hspec]; norm_num
  · rw [posL_s2]; norm_num [s1Long]

/-- C1 (amended): in phase 1+ the locked R is
`max(current_r·lock_ratio, 1)` — a constant floor of 1R, not the configured
`min_locked_r` — possibly raised by the alpha lock; consequently the
calculator's phase-1+ stop always locks at least 1R, and hence at least
`min_locked_r_for(class)·D` whenever that setting is ≤ 1 (its default is
0.2). -/
theorem c1_amended_rlock_floor (cfg : Config) (f : ATRFetcher) (pos : Snapshot)
    (risk : RiskSnapshot) (prevStop : ℚ) (hasPrev : Bool) (atr S : ℚ)
    (hD : ¬ calcRiskDistance pos risk ≤ 0)
    (hphase : ¬ calcCurrentR pos risk <
        cfg.phaseStartBreakevenForClass (calcAssetClass cfg pos))
    (hfetch : f pos.symbol (cfg.atrPeriodForClass (calcAssetClass cfg pos)) = .ok atr)
    (hatr : ¬ atr ≤ 0)
    (hok : Calculate cfg f pos risk prevStop hasPrev = .ok S) :
    (pos.side = "long" →
        pos.entryPrice + calcRiskDistance pos risk ≤ S ∧
        (cfg.minLockedRForClass (calcAssetClass cfg pos) ≤ 1 →
          pos.entryPrice +
            cfg.minLockedRForClass (calcAssetClass cfg pos) * calcRiskDistance pos risk ≤ S)) ∧
    (pos.side ≠ "long" →
        S ≤ pos.entryPrice - calcRiskDistance pos risk ∧
        (cfg.minLockedRForClass (calcAssetClass cfg pos) ≤ 1 →
          S ≤ pos.entryPrice -
            cfg.minLockedRForClass (calcAssetClass cfg pos) * calcRiskDistance pos risk)) := by
  have hD' : 0 < calcRiskDistance pos risk := lt_of_not_le hD
  have h1 : 1 ≤ calcLockedR cfg pos risk := one_le_lockedRFor _ _ _ _
  have e1 : 1 * calcRiskDistance pos risk ≤
      calcLockedR cfg pos risk * calcRiskDistance pos risk :=
    mul_le_mul_of_nonneg_right h1 hD'.le
  constructor
  · intro hside
    rw [Calculate_phase1_long cfg f pos risk prevStop hasPrev atr hside hD hphase hfetch hatr] at hok
    have hS := (Except.ok.inj hok).symm
    have hs1 : pos.entryPrice + calcLockedR cfg pos risk * calcRiskDistance pos risk ≤
        calcS1Long cfg pos risk := by
      simp only [calcS1Long, s1Long]
      exact le_max_left _ _
    have hSS1 : calcS1Long cfg pos risk ≤ S := by
      rw [hS]
      exact le_trans
        (le_max_left (calcS1Long cfg pos risk) (calcS2Long cfg pos risk atr))
        (le_max_right (calcBaseStop risk prevStop hasPrev) _)
    refine ⟨by linarith, fun hmin => ?_⟩
    have e2 : cfg.minLockedRForClass (calcAssetClass cfg pos) * calcRiskDistance pos risk ≤
        1 * calcRiskDistance pos risk := mul_le_mul_of_nonneg_right hmin hD'.le
    linarith
  · intro hside
    rw [Calculate_phase1_short cfg f pos risk prevStop hasPrev atr hside hD hphase hfetch hatr] at hok
    have hS := (Except.ok.inj hok).symm
    have hs1 : calcS1Short cfg pos risk ≤
        pos.entryPrice - calcLockedR cfg pos risk * calcRiskDistance pos risk := by
      simp only [calcS1Short, s1Short]
      exact min_le_left _ _
    have hSS1 : S ≤ calcS1Short cfg pos risk := by
      rw [hS]
      exact le_trans
        (min_le_right (calcBaseStop risk prevStop hasPrev) _)
        (min_le_left (calcS1Short cfg pos risk) (calcS2Short cfg pos risk atr))
    refine ⟨by linarith, fun hmin => ?_⟩
    have e2 : cfg.minLockedRForClass (calcAssetClass cfg pos) * calcRiskDistance pos risk ≤
        1 * calcRiskDistance pos risk := mul_le_mul_of_nonneg_right hmin hD'.le
    linarith

/-- Witness for the amended C1 at `posL`: the result 102 locks at least 1R
(102 ≥ 100 + 2) and at least the configured 0.2R. -/
theorem c1_amended_rlock_floor_witness :
    posL.entryPrice + calcRiskDistance posL riskL ≤ (102 : ℚ) ∧
    (defaultConfig.minLockedRForClass (calcAssetClass defaultConfig posL) ≤ 1 →
      posL.entryPrice +
        defaultConfig.minLockedRForClass (calcAssetClass defaultConfig posL) *
          calcRiskDistance posL riskL ≤ (102 : ℚ)) :=
  (c1_amended_rlock_floor defaultConfig (fun _ _ => .ok 1) posL riskL 98 true 1 102
      posL_riskDistance posL_phase1 rfl (by norm_num) posL_calculate).1 rfl

/-- Helper: in phase 0 (`current_r < phase_start_breakeven`) the calculator
returns the base stop unchanged. -/
theorem Calculate_phase0 (cfg : Config) (f : ATRFetcher) (pos : Snapshot)
    (risk : RiskSnapshot) (prevStop : ℚ) (hasPrev : Bool)
    (hD : ¬ calcRiskDistance pos risk ≤ 0)
    (hphase : calcCurrentR pos risk <
        cfg.phaseStartBreakevenForClass (calcAssetClass cfg pos)) :
    Calculate cfg f pos risk prevStop hasPrev =
      .ok (calcBaseStop risk prevStop hasPrev) := by
  simp only [calcRiskDistance] at hD
  simp only [calcCurrentR, calcAssetClass, calcRiskDistance] at hphase
  simp only [Calculate, calcBaseStop]
  rw [if_neg hD, if_pos hphase]

/-- The T+2 reversion target exactly as the claim describes it:
`S_t2 = entry ± (max_r · t_plus_two_lock_ratio)·D`, clamped so it never
crosses the entry into loss, with the base stop tightened toward it.
(Definition written from the claim's words, for comparison with the code.) -/
def tPlusTwoTargetSpec (cfg : Config) (assetClass side : String)
    (entry baseStop riskDistance maxR : ℚ) : ℚ :=
  let lockRatio := cfg.tPlusTwoLockRatioForClass assetClass
  if side = "long" then
    tightenStopLong baseStop (max (entry + maxR * lockRatio * riskDistance) entry)
  else
    tightenStopShort baseStop (min (entry - maxR * lockRatio * riskDistance) entry)

/-- The concrete phase-0 long snapshot for the T+2 scenario: entry 100, mark
101, initial stop 98 (D = 2, current R = 0.5 < breakeven 0.8). -/
def posT2 : Snapshot := ⟨"SOLUSDT", "long", 100, 101, 1, 5⟩

/-- Risk view for `posT2`: initial stop 98, peak 101, max R 0.5 (the position
ran up and fell back). -/
def riskT2 : RiskSnapshot := ⟨98, 101, 1/2⟩

/-- Evaluation fact: `posT2` resolves to `trend_alt`. -/
theorem posT2_class : calcAssetClass defaultConfig posT2 = "trend_alt" := by decide

/-- Evaluation fact: risk distance of `posT2` is nonzero. -/
theorem posT2_riskDistance : ¬ calcRiskDistance posT2 riskT2 ≤ 0 := by
  norm_num [calcRiskDistance, posT2, riskT2]

/-- Evaluation fact: `posT2` is in phase 0 (current R = 0.5 < 0.8). -/
theorem posT2_phase0 : calcCurrentR posT2 riskT2 <
    defaultConfig.phaseStartBreakevenForClass (calcAssetClass defaultConfig posT2) := by
  rw [posT2_class]
  norm_num [calcCurrentR, currentRMultiple, calcRiskDistance, posT2, riskT2,
    Config.phaseStartBreakevenForClass, defaultConfig_trendAlt, trendAltProfile]

/-- C2 (counterexample): at `posT2`, every condition of the claimed T+2
override holds — the resolved T+2 duration (3h) and lock ratio (0.8) are
positive, `max_r = 0.5 > 0`, `0 < current_r = 0.5 <` the first band's
`max_r = 1.5`, the position is in phase 0, and 4h have elapsed since an open
at time 0 — yet the calculator returns the base stop 98 unchanged, not the
claimed reversion stop `100 + (0.5·0.8)·2 = 100.8`.  (The calculator takes
no clock or open-time input at all.) -/
theorem c2_t_plus_two_counterexample :
    0 < defaultConfig.tPlusTwoDurationForClass "trend_alt" ∧
    0 < defaultConfig.tPlusTwoLockRatioForClass "trend_alt" ∧
    0 < riskT2.maxR ∧
    0 < calcCurrentR posT2 riskT2 ∧
    calcCurrentR posT2 riskT2 < (trendAltProfile.ranges.headD ⟨0, 0, 0, ""⟩).maxR ∧
    calcCurrentR posT2 riskT2 <
      defaultConfig.phaseStartBreakevenForClass (calcAssetClass defaultConfig posT2) ∧
    ((4 * 3600 * 1000000000 : ℤ) - 0 ≥ defaultConfig.tPlusTwoDurationForClass "trend_alt") ∧
    Calculate defaultConfig (fun _ _ => .ok 1) posT2 riskT2 98 true = .ok 98 ∧
    tPlusTwoTargetSpec defaultConfig "trend_alt" "long" 100 98 2 riskT2.maxR = 504/5 ∧
    (98 : ℚ) ≠ 504/5 := by
  have hcr : calcCurrentR posT2 riskT2 = 1/2 := by
    norm_num [calcCurrentR, currentRMultiple, calcRiskDistance, posT2, riskT2]
  have hdur : defaultConfig.tPlusTwoDurationForClass "trend_alt" = 10800000000000 := by
    simp only [Config.tPlusTwoDurationForClass, defaultConfig_trendAlt, trendAltProfile]
    norm_num [defaultConfig]
  have hratio : defaultConfig.tPlusTwoLockRatioForClass "trend_alt" = 4/5 := by
    simp only [Config.tPlusTwoLockRatioForClass, defaultConfig_trendAlt, trendAltProfile]
    norm_num [defaultConfig]
  have hcalc : Calculate defaultConfig (fun _ _ => .ok 1) posT2 riskT2 98 true = .ok 98 := by
    rw [Calculate_phase0 defaultConfig (fun _ _ => .ok 1) posT2 riskT2 98 true
      posT2_riskDistance posT2_phase0]
    simp [calcBaseStop]
  refine ⟨by rw [hdur]; norm_num, by rw [hratio]; norm_num,
    by norm_num [riskT2], by rw [hcr]; norm_num,
    by rw [hcr]; norm_num [trendAltProfile], posT2_phase0,
    by rw [hdur]; norm_num, hcalc, ?_, by norm_num⟩
  rw [tPlusTwoTargetSpec]
  simp only [if_pos rfl]
  rw [hratio]
  norm_num [riskT2, tightenStopLong]

/-- C2 (amended): in phase 0 (`current_r <` the class's breakeven threshold,
positive risk distance) the calculator always returns the base stop
unchanged — the previous stop when one was adopted, else the initial stop —
and offers no force-exit signal; the T+2 configuration is never consulted. -/
theorem c2_amended_phase0_hold (cfg : Config) (f : ATRFetcher) (pos : Snapshot)
    (risk : RiskSnapshot) (prevStop : ℚ) (hasPrev : Bool)
    (hD : ¬ calcRiskDistance pos risk ≤ 0)
    (hphase : calcCurrentR pos risk <
        cfg.phaseStartBreakevenForClass (calcAssetClass cfg pos)) :
    Calculate cfg f pos risk prevStop hasPrev =
      .ok (calcBaseStop risk prevStop hasPrev) :=
  Calculate_phase0 cfg f pos risk prevStop hasPrev hD hphase

/-- Witness for the amended C2 at `posT2`: the phase-0 result is the base
stop 98. -/
theorem c2_amended_phase0_hold_witness :
    Calculate defaultConfig (fun _ _ => .ok 1) posT2 riskT2 98 true =
      .ok (calcBaseStop riskT2 98 true) :=
  c2_amended_phase0_hold defaultConfig (fun _ _ => .ok 1) posT2 riskT2 98 true
    posT2_riskDistance posT2_phase0

/-- Helper: one step reduces to `processWithRisk` when the quantity is
nonzero and a risk state exists. -/
theorem processPositionSnapshot_eq (cfg : Config) (f : ATRFetcher)
    (pos : Snapshot) (reg : Registry) (sq lq : Except Unit (ℚ × Bool))
    (now : ℤ) (info0 : riskStageInfo)
    (hq : ¬ pos.quantity = 0) (hlk : reg.lookup pos.key = some info0) :
    processPositionSnapshot cfg f pos reg sq lq now =
      processWithRisk cfg f pos reg info0 sq lq now := by
  simp only [processPositionSnapshot]
  rw [if_neg hq, hlk]

/-- Helper: `processWithRisk` reduces to `processAdopted` when the risk
distance is nonzero. -/
theorem processWithRisk_eq (cfg : Config) (f : ATRFetcher) (pos : Snapshot)
    (reg : Registry) (info0 : riskStageInfo) (sq lq : Except Unit (ℚ × Bool))
    (now : ℤ) (hD : ¬ |pos.entryPrice - info0.initialStop| = 0) :
    processWithRisk cfg f pos reg info0 sq lq now =
      processAdopted cfg f pos (stepRegistry pos reg info0 now)
        (stepRiskInfo pos reg info0 now) sq lq := by
  simp only [processWithRisk]
  rw [if_neg hD]

/-- Helper: `processAdopted` reduces to the validation tail when the
calculator succeeds. -/
theorem processAdopted_eq_ok (cfg : Config) (f : ATRFetcher) (pos : Snapshot)
    (reg1 : Registry) (riskInfo : riskStageInfo)
    (sq lq : Except Unit (ℚ × Bool)) (ns : ℚ)
    (hok : Calculate cfg f pos
        ⟨riskInfo.initialStop, riskInfo.peakPrice, riskInfo.maxR⟩
        (adoptPrevStop riskInfo sq).1 (adoptPrevStop riskInfo sq).2 = .ok ns) :
    processAdopted cfg f pos reg1 riskInfo sq lq =
      stepValidateAndUpdate pos (adoptRegistry reg1 pos.key sq)
        riskInfo.initialStop ns (adoptPrevStop riskInfo sq).1
        (adoptPrevStop riskInfo sq).2 lq := by
  simp only [processAdopted]
  rw [hok]

/-- Helper: the ε guard — with an adopted previous stop and an almost-equal
result, the validation tail skips without touching the adapter or the
registry. -/
theorem stepValidateAndUpdate_guard (pos : Snapshot) (reg2 : Registry)
    (init ns prev : ℚ) (lq : Except Unit (ℚ × Bool))
    (heq : floatsAlmostEqual ns prev = true) :
    stepValidateAndUpdate pos reg2 init ns prev true lq =
      ⟨.skipped, none, reg2⟩ := by
  simp only [stepValidateAndUpdate]
  rw [if_pos ⟨trivial, heq⟩]

/-- Helper: past the ε guard, the validation tail hands `isStopLossValid`
exactly the flag `(no previous stop adopted) && (result ≈ initial stop)`. -/
theorem stepValidateAndUpdate_allowUsed (pos : Snapshot) (reg2 : Registry)
    (init ns prev : ℚ) (hp : Bool) (lq : Except Unit (ℚ × Bool))
    (hguard : ¬ (hp = true ∧ floatsAlmostEqual ns prev = true)) :
    (stepValidateAndUpdate pos reg2 init ns prev hp lq).allowUsed =
      some ((!hp) && floatsAlmostEqual ns init) := by
  simp only [stepValidateAndUpdate]
  rw [if_neg hguard]
  repeat' split
  all_goals rfl

/-- Helper: the peak/max-R mutation never touches the initial stop. -/
theorem updatePeakAndMaxRInfo_initialStop (side : String) (mark r : ℚ)
    (now : ℤ) (info : riskStageInfo) :
    (updatePeakAndMaxRInfo side mark r now info).initialStop = info.initialStop := by
  simp only [updatePeakAndMaxRInfo]
  split_ifs <;> rfl

/-- Helper: the re-read risk state keeps the registered initial stop. -/
theorem stepRiskInfo_initialStop (pos : Snapshot) (reg : Registry)
    (info0 : riskStageInfo) (now : ℤ)
    (hlk : reg.lookup pos.key = some info0) :
    (stepRiskInfo pos reg info0 now).initialStop = info0.initialStop := by
  simp only [stepRiskInfo, stepRegistry, regUpdatePeakAndMaxR, hlk,
    lookup_mapSet_self, Option.getD_some]
  exact updatePeakAndMaxRInfo_initialStop _ _ _ _ _

/-- C8: on a tick that reaches validation, the monitor passes
`allow_initial_stop = true` to the validity predicate exactly when no
previous stop was adopted for the position (no exchange stop and no recorded
stop) and the calculator's result equals (within the monitor's ε) the
registered initial stop; in all other cases the flag is false. -/
theorem c8_allow_initial_stop_flag (cfg : Config) (f : ATRFetcher)
    (pos : Snapshot) (reg : Registry) (sq lq : Except Unit (ℚ × Bool))
    (now : ℤ) (info0 : riskStageInfo) (ns : ℚ)
    (hq : ¬ pos.quantity = 0)
    (hlk : reg.lookup pos.key = some info0)
    (hD : ¬ |pos.entryPrice - info0.initialStop| = 0)
    (hok : Calculate cfg f pos
        ⟨(stepRiskInfo pos reg info0 now).initialStop,
          (stepRiskInfo pos reg info0 now).peakPrice,
          (stepRiskInfo pos reg info0 now).maxR⟩
        (adoptPrevStop (stepRiskInfo pos reg info0 now) sq).1
        (adoptPrevStop (stepRiskInfo pos reg info0 now) sq).2 = .ok ns)
    (hguard : ¬ ((adoptPrevStop (stepRiskInfo pos reg info0 now) sq).2 = true ∧
        floatsAlmostEqual ns (adoptPrevStop (stepRiskInfo pos reg info0 now) sq).1 = true)) :
    (processPositionSnapshot cfg f pos reg sq lq now).allowUsed =
      some ((!(adoptPrevStop (stepRiskInfo pos reg info0 now) sq).2) &&
        floatsAlmostEqual ns info0.initialStop) := by
  rw [processPositionSnapshot_eq cfg f pos reg sq lq now info0 hq hlk,
    processWithRisk_eq cfg f pos reg info0 sq lq now hD,
    processAdopted_eq_ok cfg f pos _ _ sq lq ns hok,
    stepValidateAndUpdate_allowUsed _ _ _ _ _ _ _ hguard,
    stepRiskInfo_initialStop pos reg info0 now hlk]

/-- Registry record behind `riskT2` (re-establishment scenario). -/
def infoT2 : riskStageInfo := ⟨98, 101, 1/2, 0, false, 5⟩

/-- A registry holding only `infoT2` under the `posT2` key. -/
def regT2 : Registry := [("SOLUSDT_long", infoT2)]

/-- Evaluation fact: the peak/max-R update leaves `infoT2` unchanged (the
mark equals the stored peak and current R equals the stored max R). -/
theorem stepRiskInfo_T2 : stepRiskInfo posT2 regT2 infoT2 7 = infoT2 := by
  simp only [stepRiskInfo, stepRegistry, regUpdatePeakAndMaxR]
  rw [show List.lookup posT2.key regT2 = some infoT2 from rfl]
  simp only [lookup_mapSet_self, Option.getD_some]
  norm_num [updatePeakAndMaxRInfo, stepCurrentR, posT2, infoT2]

/-- Evaluation fact: with the exchange showing no stop and nothing recorded,
the adoption falls back to the initial stop with `hasPrevStop = false`. -/
theorem adopt_T2 : adoptPrevStop (stepRiskInfo posT2 regT2 infoT2 7) (.ok (0, false)) = (98, false) := by
  rw [stepRiskInfo_T2]
  simp [adoptPrevStop, infoT2]

/-- Witness for C8 at `posT2`: the exchange shows no stop order, nothing was
recorded, and the phase-0 calculator returns the registered initial stop —
the monitor passes `allow_initial_stop = true`. -/
theorem c8_allow_initial_stop_flag_witness :
    (processPositionSnapshot defaultConfig (fun _ _ => .ok 1) posT2 regT2
        (.ok (0, false)) (.error ()) 7).allowUsed = some true := by
  have hrisk : (⟨(stepRiskInfo posT2 regT2 infoT2 7).initialStop,
      (stepRiskInfo posT2 regT2 infoT2 7).peakPrice,
      (stepRiskInfo posT2 regT2 infoT2 7).maxR⟩ : RiskSnapshot) = riskT2 := by
    rw [stepRiskInfo_T2]
    rfl
  have hok : Calculate defaultConfig (fun _ _ => .ok 1) posT2
      ⟨(stepRiskInfo posT2 regT2 infoT2 7).initialStop,
        (stepRiskInfo posT2 regT2 infoT2 7).peakPrice,
        (stepRiskInfo posT2 regT2 infoT2 7).maxR⟩
      (adoptPrevStop (stepRiskInfo posT2 regT2 infoT2 7) (.ok (0, false))).1
      (adoptPrevStop (stepRiskInfo posT2 regT2 infoT2 7) (.ok (0, false))).2 = .ok 98 := by
    rw [hrisk, adopt_T2]
    rw [Calculate_phase0 defaultConfig (fun _ _ => .ok 1) posT2 riskT2 98 false
      posT2_riskDistance posT2_phase0]
    simp [calcBaseStop, riskT2]
  have h := c8_allow_initial_stop_flag defaultConfig (fun _ _ => .ok 1) posT2 regT2
    (.ok (0, false)) (.error ()) 7 infoT2 98
    (by norm_num [posT2]) rfl (by norm_num [posT2, infoT2]) hok
    (by rw [adopt_T2]; simp)
  rw [h, adopt_T2]
  norm_num [floatsAlmostEqual, floatEqualityEpsilon, infoT2]

/-- Helper: a non-positive risk distance makes the calculator fail. -/
theorem Calculate_riskDistance_err (cfg : Config) (f : ATRFetcher)
    (pos : Snapshot) (risk : RiskSnapshot) (prevStop : ℚ) (hasPrev : Bool)
    (hD : calcRiskDistance pos risk ≤ 0) :
    Calculate cfg f pos risk prevStop hasPrev = .error .riskDistanceInvalid := by
  simp only [calcRiskDistance] at hD
  simp only [Calculate]
  rw [if_pos hD]

/-- Helper: in phase 1+ an ATR fetch error propagates. -/
theorem Calculate_fetch_error (cfg : Config) (f : ATRFetcher) (pos : Snapshot)
    (risk : RiskSnapshot) (prevStop : ℚ) (hasPrev : Bool) (e : CalcError)
    (hD : ¬ calcRiskDistance pos risk ≤ 0)
    (hphase : ¬ calcCurrentR pos risk <
        cfg.phaseStartBreakevenForClass (calcAssetClass cfg pos))
    (hfetch : f pos.symbol (cfg.atrPeriodForClass (calcAssetClass cfg pos)) = .error e) :
    Calculate cfg f pos risk prevStop hasPrev = .error .atrFetchFailed := by
  simp only [calcRiskDistance] at hD
  simp only [calcCurrentR, calcAssetClass, calcRiskDistance] at hphase
  simp only [calcAssetClass] at hfetch
  simp only [Calculate]
  rw [if_neg hD, if_neg hphase, hfetch]

/-- Helper: in phase 1+ a non-positive ATR makes the calculator fail. -/
theorem Calculate_atr_nonpos (cfg : Config) (f : ATRFetcher) (pos : Snapshot)
    (risk : RiskSnapshot) (prevStop : ℚ) (hasPrev : Bool) (atr : ℚ)
    (hD : ¬ calcRiskDistance pos risk ≤ 0)
    (hphase : ¬ calcCurrentR pos risk <
        cfg.phaseStartBreakevenForClass (calcAssetClass cfg pos))
    (hfetch : f pos.symbol (cfg.atrPeriodForClass (calcAssetClass cfg pos)) = .ok atr)
    (hatr : atr ≤ 0) :
    Calculate cfg f pos risk prevStop hasPrev = .error .atrUnavailable := by
  simp only [calcRiskDistance] at hD
  simp only [calcCurrentR, calcAssetClass, calcRiskDistance] at hphase
  simp only [calcAssetClass] at hfetch
  simp only [Calculate]
  rw [if_neg hD, if_neg hphase, hfetch]
  simp only [if_pos hatr]

/-- Helper (calculator idempotence): feeding the calculator's own successful
result back as the previous stop returns the same stop again — in phase 0
the base stop is returned as-is, and in phase 1+ the candidates S1 and S2 do
not depend on the base stop, so `max/min` with the old result is a fixed
point. -/
theorem Calculate_rerun (cfg : Config) (f : ATRFetcher) (pos : Snapshot)
    (risk : RiskSnapshot) (prevStop : ℚ) (hasPrev : Bool) (S : ℚ)
    (hok : Calculate cfg f pos risk prevStop hasPrev = .ok S) :
    Calculate cfg f pos risk S true = .ok S := by
  by_cases hD : calcRiskDistance pos risk ≤ 0
  · rw [Calculate_riskDistance_err cfg f pos risk prevStop hasPrev hD] at hok
    cases hok
  · by_cases hph : calcCurrentR pos risk <
        cfg.phaseStartBreakevenForClass (calcAssetClass cfg pos)
    · rw [Calculate_phase0 cfg f pos risk S true hD hph]
      simp [calcBaseStop]
    · cases hfe : f pos.symbol (cfg.atrPeriodForClass (calcAssetClass cfg pos)) with
      | error e =>
        rw [Calculate_fetch_error cfg f pos risk prevStop hasPrev e hD hph hfe] at hok
        cases hok
      | ok atr =>
        by_cases hatr : atr ≤ 0
        · rw [Calculate_atr_nonpos cfg f pos risk prevStop hasPrev atr hD hph hfe hatr] at hok
          cases hok
        · by_cases hside : pos.side = "long"
          · rw [Calculate_phase1_long cfg f pos risk prevStop hasPrev atr hside hD hph hfe hatr] at hok
            have hS := Except.ok.inj hok
            have hM : max (calcS1Long cfg pos risk) (calcS2Long cfg pos risk atr) ≤ S := by
              rw [← hS]
              exact le_max_right _ _
            rw [Calculate_phase1_long cfg f pos risk S true atr hside hD hph hfe hatr]
            simp only [calcBaseStop, if_pos]
            rw [max_eq_left hM]
          · rw [Calculate_phase1_short cfg f pos risk prevStop hasPrev atr hside hD hph hfe hatr] at hok
            have hS := Except.ok.inj hok
            have hM : S ≤ min (calcS1Short cfg pos risk) (calcS2Short cfg pos risk atr) := by
              rw [← hS]
              exact min_le_right _ _
            rw [Calculate_phase1_short cfg f pos risk S true atr hside hD hph hfe hatr]
            simp only [calcBaseStop, if_pos]
            rw [min_eq_left hM]

/-- Closed form of the peak update: seed with the mark when unset, else push
in the favourable direction. -/
theorem updatePeak_peak_closed (side : String) (mark cr : ℚ) (now : ℤ)
    (i : riskStageInfo) :
    (updatePeakAndMaxRInfo side mark cr now i).peakPrice =
      if i.peakPrice = 0 then mark
      else if side = "long" then (if mark > i.peakPrice then mark else i.peakPrice)
      else if mark < i.peakPrice then mark else i.peakPrice := by
  simp only [updatePeakAndMaxRInfo]
  split_ifs <;> rfl

/-- Closed form of the max-R update. -/
theorem updatePeak_maxR_closed (side : String) (mark cr : ℚ) (now : ℤ)
    (i : riskStageInfo) :
    (updatePeakAndMaxRInfo side mark cr now i).maxR = max i.maxR cr := by
  simp only [updatePeakAndMaxRInfo]
  split_ifs with h1 h2 h3
  all_goals first
    | (exact (max_eq_right (le_of_lt ‹_›)).symm)
    | (exact (max_eq_left (not_lt.mp ‹_›)).symm)

/-- Re-running the peak update with the same mark is a no-op on the peak. -/
theorem updatePeak_peak_idem (side : String) (mark cr : ℚ) (now now2 : ℤ)
    (i j : riskStageInfo)
    (hj : j.peakPrice = (updatePeakAndMaxRInfo side mark cr now i).peakPrice) :
    (updatePeakAndMaxRInfo side mark cr now2 j).peakPrice = j.peakPrice := by
  rw [updatePeak_peak_closed] at hj
  rw [updatePeak_peak_closed]
  by_cases hi0 : i.peakPrice = 0
  · rw [if_pos hi0] at hj
    rw [hj]
    split_ifs <;> rfl
  · rw [if_neg hi0] at hj
    by_cases hside : side = "long"
    · rw [if_pos hside] at hj
      by_cases hgt : mark > i.peakPrice
      · rw [if_pos hgt] at hj
        rw [hj]
        split_ifs <;> rfl
      · rw [if_neg hgt] at hj
        rw [hj, if_neg hi0, if_pos hside, if_neg hgt]
    · rw [if_neg hside] at hj
      by_cases hlt : mark < i.peakPrice
      · rw [if_pos hlt] at hj
        rw [hj]
        split_ifs <;> rfl
      · rw [if_neg hlt] at hj
        rw [hj, if_neg hi0, if_neg hside, if_neg hlt]

/-- Re-running the max-R update with the same current R is a no-op. -/
theorem updatePeak_maxR_idem (side : String) (mark cr : ℚ) (now now2 : ℤ)
    (i j : riskStageInfo)
    (hj : j.maxR = (updatePeakAndMaxRInfo side mark cr now i).maxR) :
    (updatePeakAndMaxRInfo side mark cr now2 j).maxR = j.maxR := by
  rw [updatePeak_maxR_closed] at hj
  rw [updatePeak_maxR_closed, hj, max_assoc, max_self]

/-- Looking up the recorded key preserves the initial stop, peak and max R
through `recordStopLoss`. -/
theorem lookup_regRecordStopLoss_proj (r : Registry) (k : String) (s : ℚ)
    (i : riskStageInfo) (hi : r.lookup k = some i) :
    ∃ j, (regRecordStopLoss r k s).lookup k = some j ∧
      j.initialStop = i.initialStop ∧ j.peakPrice = i.peakPrice ∧ j.maxR = i.maxR := by
  simp only [regRecordStopLoss]
  split
  · exact ⟨i, hi, rfl, rfl, rfl⟩
  · rw [hi]
    exact ⟨_, lookup_mapSet_self _ _ _, rfl, rfl, rfl⟩

/-- Looking up the key preserves the projections through the adoption's
registry effect. -/
theorem lookup_adoptRegistry_proj (r : Registry) (k : String)
    (q : Except Unit (ℚ × Bool)) (i : riskStageInfo) (hi : r.lookup k = some i) :
    ∃ j, (adoptRegistry r k q).lookup k = some j ∧
      j.initialStop = i.initialStop ∧ j.peakPrice = i.peakPrice ∧ j.maxR = i.maxR := by
  cases q with
  | error e => exact ⟨i, hi, rfl, rfl, rfl⟩
  | ok p =>
    simp only [adoptRegistry]
    split
    · exact lookup_regRecordStopLoss_proj r k p.1 i hi
    · exact ⟨i, hi, rfl, rfl, rfl⟩

/-- The step's registry update rebinds the key to the peak/max-R-updated
record. -/
theorem lookup_stepRegistry (pos : Snapshot) (reg : Registry)
    (info0 : riskStageInfo) (now : ℤ) (hlk : reg.lookup pos.key = some info0) :
    (stepRegistry pos reg info0 now).lookup pos.key =
      some (updatePeakAndMaxRInfo pos.side pos.markPrice (stepCurrentR pos info0) now info0) := by
  simp only [stepRegistry, regUpdatePeakAndMaxR, hlk]
  exact lookup_mapSet_self _ _ _

/-- The re-read risk state is exactly the updated record. -/
theorem stepRiskInfo_eq (pos : Snapshot) (reg : Registry)
    (info0 : riskStageInfo) (now : ℤ) (hlk : reg.lookup pos.key = some info0) :
    stepRiskInfo pos reg info0 now =
      updatePeakAndMaxRInfo pos.side pos.markPrice (stepCurrentR pos info0) now info0 := by
  simp only [stepRiskInfo, lookup_stepRegistry pos reg info0 now hlk, Option.getD_some]

/-- Helper: inverting a submitted validation tail — the stop is the
calculator's value and the registry records it. -/
theorem stepValidateAndUpdate_submitted_inv (pos : Snapshot) (reg2 : Registry)
    (init ns prev : ℚ) (hp : Bool) (lq : Except Unit (ℚ × Bool)) (S : ℚ)
    (h : (stepValidateAndUpdate pos reg2 init ns prev hp lq).outcome = .submitted S) :
    S = ns ∧ (stepValidateAndUpdate pos reg2 init ns prev hp lq).registry =
      regRecordStopLoss reg2 pos.key ns := by
  simp only [stepValidateAndUpdate] at h ⊢
  split at h
  · cases h
  · next hguard =>
    rw [if_neg hguard]
    split at h
    · cases h
    · next hv2 =>
      rw [if_neg hv2]
      split at h
      · cases h
      · next hv1 =>
        rw [if_neg hv1]
        split at h
        · cases h
        · cases h
        · rename_i a heq
          have hs := (updateStopLossAction_submit_shape _ _ _ _ _ _ _ heq).1
          have hS : a = S := by simpa using h
          exact ⟨hS ▸ hs, congrArg (fun x => regRecordStopLoss reg2 pos.key x) hs⟩

/-- Helper: inverting a submitted step — the position had nonzero quantity,
a risk state with nonzero risk distance existed, the calculator succeeded
with exactly the submitted stop, and the step's registry is the updated one
with the stop recorded. -/
theorem processPositionSnapshot_submitted_inv (cfg : Config) (f : ATRFetcher)
    (pos : Snapshot) (reg : Registry) (sq lq : Except Unit (ℚ × Bool))
    (now : ℤ) (S : ℚ)
    (h : (processPositionSnapshot cfg f pos reg sq lq now).outcome = .submitted S) :
    ¬ pos.quantity = 0 ∧
    ∃ info0, reg.lookup pos.key = some info0 ∧
      ¬ |pos.entryPrice - info0.initialStop| = 0 ∧
      Calculate cfg f pos
        ⟨(stepRiskInfo pos reg info0 now).initialStop,
          (stepRiskInfo pos reg info0 now).peakPrice,
          (stepRiskInfo pos reg info0 now).maxR⟩
        (adoptPrevStop (stepRiskInfo pos reg info0 now) sq).1
        (adoptPrevStop (stepRiskInfo pos reg info0 now) sq).2 = .ok S ∧
      (processPositionSnapshot cfg f pos reg sq lq now).registry =
        regRecordStopLoss (adoptRegistry (stepRegistry pos reg info0 now) pos.key sq)
          pos.key S := by
  have h' := h
  simp only [processPositionSnapshot] at h'
  split at h'
  · cases h'
  · next hq =>
    split at h'
    · cases h'
    · rename_i info0 hlk
      refine ⟨hq, info0, hlk, ?_⟩
      simp only [processWithRisk] at h'
      split at h'
      · cases h'
      · next hD =>
        refine ⟨hD, ?_⟩
        simp only [processAdopted] at h'
        split at h'
        · cases h'
        · rename_i ns hcalc
          obtain ⟨hSns, hregeq⟩ :=
            stepValidateAndUpdate_submitted_inv _ _ _ _ _ _ _ _ h'
          subst hSns
          refine ⟨hcalc, ?_⟩
          rw [processPositionSnapshot_eq cfg f pos reg sq lq now info0 hq hlk,
            processWithRisk_eq cfg f pos reg info0 sq lq now hD,
            processAdopted_eq_ok cfg f pos _ _ sq lq S hcalc]
          exact hregeq

/-- `floatsAlmostEqual` is reflexive. -/
theorem floatsAlmostEqual_self (a : ℚ) : floatsAlmostEqual a a = true := by
  simp only [floatsAlmostEqual, sub_self, abs_zero, decide_eq_true_eq,
    floatEqualityEpsilon]
  norm_num

/-- C6: with an adopted previous stop `P`, a calculator result within
ε = 10⁻⁶ of `P` makes the monitor skip the position with no adapter call;
and after a tick that submitted a stop `S`, a second tick with the same
snapshot and market inputs — the exchange now showing `S` — is skipped, so
two consecutive ticks with identical inputs produce at most one adapter
write. -/
theorem c6_epsilon_guard_idempotence (cfg : Config) (f : ATRFetcher)
    (pos : Snapshot) (reg : Registry) (sq lq lq2 : Except Unit (ℚ × Bool))
    (now now2 : ℤ) (info0 : riskStageInfo) (ns S : ℚ) :
    (¬ pos.quantity = 0 → reg.lookup pos.key = some info0 →
      ¬ |pos.entryPrice - info0.initialStop| = 0 →
      Calculate cfg f pos
        ⟨(stepRiskInfo pos reg info0 now).initialStop,
          (stepRiskInfo pos reg info0 now).peakPrice,
          (stepRiskInfo pos reg info0 now).maxR⟩
        (adoptPrevStop (stepRiskInfo pos reg info0 now) sq).1
        (adoptPrevStop (stepRiskInfo pos reg info0 now) sq).2 = .ok ns →
      (adoptPrevStop (stepRiskInfo pos reg info0 now) sq).2 = true →
      floatsAlmostEqual ns (adoptPrevStop (stepRiskInfo pos reg info0 now) sq).1 = true →
      (processPositionSnapshot cfg f pos reg sq lq now).outcome = .skipped) ∧
    ((processPositionSnapshot cfg f pos reg sq lq now).outcome = .submitted S →
      (processPositionSnapshot cfg f pos
        (processPositionSnapshot cfg f pos reg sq lq now).registry
        (.ok (S, true)) lq2 now2).outcome = .skipped) := by
  constructor
  · intro hq hlk hD hok hprev heps
    rw [processPositionSnapshot_eq cfg f pos reg sq lq now info0 hq hlk,
      processWithRisk_eq cfg f pos reg info0 sq lq now hD,
      processAdopted_eq_ok cfg f pos _ _ sq lq ns hok, hprev,
      stepValidateAndUpdate_guard _ _ _ _ _ _ heps]
  · intro h1
    obtain ⟨hq, info1, hlk, hD, hcalc, hreg⟩ :=
      processPositionSnapshot_submitted_inv cfg f pos reg sq lq now S h1
    have hUeq : updatePeakAndMaxRInfo pos.side pos.markPrice
        (stepCurrentR pos info1) now info1 = stepRiskInfo pos reg info1 now :=
      (stepRiskInfo_eq pos reg info1 now hlk).symm
    have hlk1 := lookup_stepRegistry pos reg info1 now hlk
    obtain ⟨j1, hj1, hj1i, hj1p, hj1m⟩ :=
      lookup_adoptRegistry_proj _ pos.key sq _ hlk1
    obtain ⟨jf, hjf, hjfi, hjfp, hjfm⟩ :=
      lookup_regRecordStopLoss_proj _ pos.key S _ hj1
    have hjinit : jf.initialStop = info1.initialStop := by
      rw [hjfi, hj1i, updatePeakAndMaxRInfo_initialStop]
    have hD2 : ¬ |pos.entryPrice - jf.initialStop| = 0 := by
      rw [hjinit]; exact hD
    rw [hreg]
    rw [processPositionSnapshot_eq cfg f pos _ (.ok (S, true)) lq2 now2 jf hq hjf,
      processWithRisk_eq cfg f pos _ jf (.ok (S, true)) lq2 now2 hD2]
    have hlk2 := hjf
    have hri2 := stepRiskInfo_eq pos
      (regRecordStopLoss (adoptRegistry (stepRegistry pos reg info1 now) pos.key sq) pos.key S)
      jf now2 hlk2
    have hcr : stepCurrentR pos jf = stepCurrentR pos info1 := by
      simp only [stepCurrentR, hjinit]
    have hi2 : (stepRiskInfo pos
        (regRecordStopLoss (adoptRegistry (stepRegistry pos reg info1 now) pos.key sq) pos.key S)
        jf now2).initialStop = (stepRiskInfo pos reg info1 now).initialStop := by
      rw [hri2, updatePeakAndMaxRInfo_initialStop, hjinit, ← hUeq,
        updatePeakAndMaxRInfo_initialStop]
    have hjp : jf.peakPrice = (updatePeakAndMaxRInfo pos.side pos.markPrice
        (stepCurrentR pos info1) now info1).peakPrice := by
      rw [hjfp, hj1p]
    have hjm : jf.maxR = (updatePeakAndMaxRInfo pos.side pos.markPrice
        (stepCurrentR pos info1) now info1).maxR := by
      rw [hjfm, hj1m]
    have hp2 : (stepRiskInfo pos
        (regRecordStopLoss (adoptRegistry (stepRegistry pos reg info1 now) pos.key sq) pos.key S)
        jf now2).peakPrice = (stepRiskInfo pos reg info1 now).peakPrice := by
      rw [hri2, hcr,
        updatePeak_peak_idem pos.side pos.markPrice (stepCurrentR pos info1) now now2 info1 jf hjp,
        hjp, hUeq]
    have hm2 : (stepRiskInfo pos
        (regRecordStopLoss (adoptRegistry (stepRegistry pos reg info1 now) pos.key sq) pos.key S)
        jf now2).maxR = (stepRiskInfo pos reg info1 now).maxR := by
      rw [hri2, hcr,
        updatePeak_maxR_idem pos.side pos.markPrice (stepCurrentR pos info1) now now2 info1 jf hjm,
        hjm, hUeq]
    have hcalc2 : Calculate cfg f pos
        ⟨(stepRiskInfo pos
            (regRecordStopLoss (adoptRegistry (stepRegistry pos reg info1 now) pos.key sq) pos.key S)
            jf now2).initialStop,
          (stepRiskInfo pos
            (regRecordStopLoss (adoptRegistry (stepRegistry pos reg info1 now) pos.key sq) pos.key S)
            jf now2).peakPrice,
          (stepRiskInfo pos
            (regRecordStopLoss (adoptRegistry (stepRegistry pos reg info1 now) pos.key sq) pos.key S)
            jf now2).maxR⟩ S true = .ok S := by
      rw [hi2, hp2, hm2]
      exact Calculate_rerun cfg f pos _ _ _ S hcalc
    have hcalc2' : Calculate cfg f pos
        ⟨(stepRiskInfo pos
            (regRecordStopLoss (adoptRegistry (stepRegistry pos reg info1 now) pos.key sq) pos.key S)
            jf now2).initialStop,
          (stepRiskInfo pos
            (regRecordStopLoss (adoptRegistry (stepRegistry pos reg info1 now) pos.key sq) pos.key S)
            jf now2).peakPrice,
          (stepRiskInfo pos
            (regRecordStopLoss (adoptRegistry (stepRegistry pos reg info1 now) pos.key sq) pos.key S)
            jf now2).maxR⟩
        (adoptPrevStop (stepRiskInfo pos
            (regRecordStopLoss (adoptRegistry (stepRegistry pos reg info1 now) pos.key sq) pos.key S)
            jf now2) (.ok (S, true))).1
        (adoptPrevStop (stepRiskInfo pos
            (regRecordStopLoss (adoptRegistry (stepRegistry pos reg info1 now) pos.key sq) pos.key S)
            jf now2) (.ok (S, true))).2 = .ok S := hcalc2
    rw [processAdopted_eq_ok cfg f pos _ _ (.ok (S, true)) lq2 S hcalc2']
    rw [show adoptPrevStop (stepRiskInfo pos
        (regRecordStopLoss (adoptRegistry (stepRegistry pos reg info1 now) pos.key sq) pos.key S)
        jf now2) (.ok (S, true)) = (S, true) from rfl]
    rw [stepValidateAndUpdate_guard _ _ _ _ _ _ (floatsAlmostEqual_self S)]

/-- Registry record behind `riskL` for the guard witness. -/
def infoL : riskStageInfo := ⟨98, 103, 3/2, 0, false, 5⟩

/-- A registry holding only `infoL` under the `posL` key. -/
def regL : Registry := [("SOLUSDT_long", infoL)]

/-- Evaluation fact: the peak/max-R update leaves `infoL` unchanged. -/
theorem stepRiskInfo_L : stepRiskInfo posL regL infoL 7 = infoL := by
  simp only [stepRiskInfo, stepRegistry, regUpdatePeakAndMaxR]
  rw [show List.lookup posL.key regL = some infoL from rfl]
  simp only [lookup_mapSet_self, Option.getD_some]
  norm_num [updatePeakAndMaxRInfo, stepCurrentR, posL, infoL]

/-- Witness for C6 at `posL`: the exchange already shows the stop 102 and the
calculator returns 102 again — the step is skipped with no adapter call. -/
theorem c6_epsilon_guard_idempotence_witness :
    (processPositionSnapshot defaultConfig (fun _ _ => .ok 1) posL regL
        (.ok (102, true)) (.error ()) 7).outcome = .skipped := by
  have hok : Calculate defaultConfig (fun _ _ => .ok 1) posL
      ⟨(stepRiskInfo posL regL infoL 7).initialStop,
        (stepRiskInfo posL regL infoL 7).peakPrice,
        (stepRiskInfo posL regL infoL 7).maxR⟩
      (adoptPrevStop (stepRiskInfo posL regL infoL 7) (.ok (102, true))).1
      (adoptPrevStop (stepRiskInfo posL regL infoL 7) (.ok (102, true))).2 = .ok 102 := by
    rw [stepRiskInfo_L]
    exact Calculate_rerun defaultConfig (fun _ _ => .ok 1) posL riskL 98 true 102
      posL_calculate
  exact (c6_epsilon_guard_idempotence defaultConfig (fun _ _ => .ok 1) posL regL
      (.ok (102, true)) (.error ()) (.error ()) 7 7 infoL 102 102).1
    (by norm_num [posL]) rfl (by norm_num [posL, infoL]) hok rfl
    (floatsAlmostEqual_self 102)

/-- Lookup through a filter that drops only another key. -/
theorem lookup_filter_ne {α : Type} (l : List (String × α)) (key k : String)
    (hk : k ≠ key) :
    (l.filter (fun e => e.1 ≠ key)).lookup k = l.lookup k := by
  induction l with
  | nil => rfl
  | cons a t ih =>
    obtain ⟨a1, a2⟩ := a
    by_cases ha : a1 = key
    · subst ha
      have hbeq : (k == a1) = false := by simpa using hk
      rw [List.filter_cons, if_neg (by simp)]
      rw [ih]
      simp only [List.lookup, hbeq]
    · rw [List.filter_cons, if_pos (by simpa using ha)]
      cases hka : (k == a1) with
      | true => simp only [List.lookup, hka]
      | false =>
        simp only [List.lookup, hka]
        exact ih

/-- Lookup of another key is unchanged by `mapSet`. -/
theorem lookup_mapSet_ne {α : Type} (l : List (String × α)) (key k : String)
    (v : α) (hk : k ≠ key) : (mapSet l key v).lookup k = l.lookup k := by
  simp only [mapSet, List.lookup]
  rw [show (k == key) = false by simpa using hk]
  exact lookup_filter_ne l key k hk

/-- Lookup of the removed key yields none. -/
theorem lookup_mapRemove_self {α : Type} (l : List (String × α)) (key : String) :
    (mapRemove l key).lookup key = none := by
  simp only [mapRemove]
  induction l with
  | nil => rfl
  | cons a t ih =>
    obtain ⟨a1, a2⟩ := a
    by_cases ha : a1 = key
    · subst ha
      rw [List.filter_cons, if_neg (by simp)]
      exact ih
    · rw [List.filter_cons, if_pos (by simpa using ha)]
      simp only [List.lookup,
        show (key == a1) = false by simpa using (Ne.symm ha)]
      exact ih

/-- Lookup of another key is unchanged by `mapRemove`. -/
theorem lookup_mapRemove_ne {α : Type} (l : List (String × α)) (key k : String)
    (hk : k ≠ key) : (mapRemove l key).lookup k = l.lookup k :=
  lookup_filter_ne l key k hk

/-- Adding an owner never empties the owner set. -/
theorem insertOwner_ne_nil (l : List String) (traderId : String) :
    insertOwner l traderId ≠ [] := by
  simp only [insertOwner]
  split
  · next hmem => exact List.ne_nil_of_mem hmem
  · exact List.cons_ne_nil _ _

/-- The default head of a non-empty list is a member. -/
theorem headD_mem (l : List String) (hl : l ≠ []) (d : String) : l.headD d ∈ l := by
  cases l with
  | nil => exact absurd rfl hl
  | cons a t => exact List.mem_cons_self _ _

/-- C9: a shared monitor entry exists exactly while its owner set is
non-empty.  Acquire adds the caller as an owner — creating the entry and
monitor on first acquire — and rebinds the monitor's owner; a handle's stop
removes that owner, dropping the entry and stopping the monitor when the
owner set empties, otherwise rebinding some remaining owner; the owner-set
non-emptiness invariant is preserved by both operations, and a stopped
handle becomes inert. -/
theorem c9_shared_monitor_lifetime (st : ManagerState)
    (accountKey traderId : String) (h : SharedHandle) :
    (ownersNonempty st → ownersNonempty (acquire st accountKey traderId).1) ∧
    (ownersNonempty st → ownersNonempty (handleStop st h).1) ∧
    (accountKey ≠ "" → st.entries.lookup accountKey = none →
      ∃ e, (acquire st accountKey traderId).1.entries.lookup accountKey = some e ∧
        e.owners = [traderId] ∧ e.boundOwner = traderId ∧
        (acquire st accountKey traderId).2 = some ⟨accountKey, traderId, some e.eid⟩) ∧
    (accountKey ≠ "" → ∀ e0, st.entries.lookup accountKey = some e0 →
      ∃ e, (acquire st accountKey traderId).1.entries.lookup accountKey = some e ∧
        e.owners = insertOwner e0.owners traderId ∧ e.boundOwner = traderId ∧
        e.eid = e0.eid) ∧
    (∀ e0 eid, h.entry = some eid → st.entries.lookup h.accountKey = some e0 →
      e0.eid = eid → e0.owners.erase h.ownerId = [] →
      (handleStop st h).1.entries.lookup h.accountKey = none ∧
      e0.monitorId ∈ (handleStop st h).1.stoppedMonitors ∧
      (handleStop st h).2.entry = none) ∧
    (∀ e0 eid, h.entry = some eid → st.entries.lookup h.accountKey = some e0 →
      e0.eid = eid → e0.owners.erase h.ownerId ≠ [] →
      ∃ e, (handleStop st h).1.entries.lookup h.accountKey = some e ∧
        e.owners = e0.owners.erase h.ownerId ∧ e.boundOwner ∈ e.owners ∧
        e.eid = e0.eid ∧
        (handleStop st h).1.stoppedMonitors = st.stoppedMonitors ∧
        (handleStop st h).2.entry = none) ∧
    (h.entry = none → handleStop st h = (st, h)) := by
  refine ⟨?_, ?_, ?_, ?_, ?_, ?_, ?_⟩
  · intro hinv k e hk
    by_cases hak : accountKey = ""
    · simp only [acquire, if_pos hak] at hk
      exact hinv k e hk
    · cases hle : st.entries.lookup accountKey with
      | some e0 =>
        simp only [acquire, if_neg hak, hle] at hk
        by_cases hkk : k = accountKey
        · subst hkk
          rw [lookup_mapSet_self] at hk
          injection hk with hk'
          rw [← hk']
          exact insertOwner_ne_nil _ _
        · rw [lookup_mapSet_ne _ _ _ _ hkk] at hk
          exact hinv k e hk
      | none =>
        simp only [acquire, if_neg hak, hle] at hk
        by_cases hkk : k = accountKey
        · subst hkk
          rw [lookup_mapSet_self] at hk
          injection hk with hk'
          rw [← hk']
          exact List.cons_ne_nil _ _
        · rw [lookup_mapSet_ne _ _ _ _ hkk] at hk
          exact hinv k e hk
  · intro hinv k e hk
    cases hentry : h.entry with
    | none =>
      simp only [handleStop, hentry] at hk
      exact hinv k e hk
    | some eid =>
      cases hle : st.entries.lookup h.accountKey with
      | none =>
        simp only [handleStop, hentry, hle] at hk
        exact hinv k e hk
      | some e0 =>
        simp only [handleStop, hentry, hle] at hk
        by_cases heid : e0.eid = eid
        · rw [if_pos heid] at hk
          by_cases how : e0.owners.erase h.ownerId = []
          · rw [if_pos how] at hk
            by_cases hkk : k = h.accountKey
            · subst hkk
              rw [lookup_mapRemove_self] at hk
              cases hk
            · rw [lookup_mapRemove_ne _ _ _ hkk] at hk
              exact hinv k e hk
          · rw [if_neg how] at hk
            by_cases hkk : k = h.accountKey
            · subst hkk
              rw [lookup_mapSet_self] at hk
              injection hk with hk'
              rw [← hk']
              exact how
            · rw [lookup_mapSet_ne _ _ _ _ hkk] at hk
              exact hinv k e hk
        · rw [if_neg heid] at hk
          exact hinv k e hk
  · intro hak hnone
    simp only [acquire, if_neg hak, hnone]
    exact ⟨_, lookup_mapSet_self _ _ _, rfl, rfl, rfl⟩
  · intro hak e0 hsome
    simp only [acquire, if_neg hak, hsome]
    exact ⟨_, lookup_mapSet_self _ _ _, rfl, rfl, rfl⟩
  · intro e0 eid hentry hsome heid how
    simp only [handleStop, hentry, hsome, if_pos heid, if_pos how]
    exact ⟨lookup_mapRemove_self _ _, List.mem_cons_self _ _, by trivial⟩
  · intro e0 eid hentry hsome heid how
    simp only [handleStop, hentry, hsome, if_pos heid, if_neg how]
    exact ⟨_, lookup_mapSet_self _ _ _, by trivial, headD_mem _ how _, by trivial,
      by trivial, by trivial⟩
  · intro hentry
    simp only [handleStop, hentry]

/-- Witness for C9: a first acquire on an empty manager creates the entry
with the caller as sole owner and bound owner. -/
theorem c9_shared_monitor_lifetime_witness :
    ∃ e, (acquire ⟨[], 0, []⟩ "acct1" "trader1").1.entries.lookup "acct1" = some e ∧
      e.owners = ["trader1"] ∧ e.boundOwner = "trader1" ∧
      (acquire ⟨[], 0, []⟩ "acct1" "trader1").2 =
        some ⟨"acct1", "trader1", some e.eid⟩ :=
  (c9_shared_monitor_lifetime ⟨[], 0, []⟩ "acct1" "trader1" ⟨"", "", none⟩).2.2.1
    (by decide) rfl

/-- The true-range list is one shorter than the kline list. -/
theorem trList_length (ks : List Kline) : (trList ks).length = ks.length - 1 := by
  induction ks with
  | nil => rfl
  | cons a t ih =>
    cases t with
    | nil => rfl
    | cons b r =>
      simp only [trList, List.length_cons] at ih ⊢
      omega

/-- Element `i` of the true-range list is the spec's `TR[i+1]`. -/
theorem trList_get (ks : List Kline) : ∀ i, i + 1 < ks.length →
    (trList ks)[i]? = some (trAt ks (i + 1)) := by
  induction ks with
  | nil =>
    intro i hi
    simp at hi
  | cons a t ih =>
    cases t with
    | nil =>
      intro i hi
      simp at hi
    | cons b r =>
      intro i hi
      cases i with
      | zero => simp [trList, trAt]
      | succ n =>
        have h' := ih n (by simpa [Nat.succ_lt_succ_iff] using hi)
        simp only [trList, List.getElem?_cons_succ]
        rw [h']
        congr 1

/-- Summing a prefix equals summing the indexed values over `range`. -/
theorem take_sum_range {l : List ℚ} {g : ℕ → ℚ} :
    ∀ p, p ≤ l.length → (∀ i, i < p → l[i]? = some (g i)) →
    (l.take p).sum = ((List.range p).map g).sum := by
  intro p
  induction p with
  | zero =>
    intro _ _
    simp
  | succ n ih =>
    intro hp hg
    rw [List.take_succ, List.sum_append, List.range_succ, List.map_append,
      List.sum_append, ih (Nat.le_of_succ_le hp) (fun i hi => hg i (Nat.lt_succ_of_lt hi)),
      hg n (Nat.lt_succ_self n)]
    simp

/-- The Wilder-smoothing fold over `j` true ranges past the seed equals the
spec's recursion at offset `j`. -/
theorem foldl_wilder (ks : List Kline) (p : ℕ) :
    ∀ j, p + j ≤ (trList ks).length →
    (((trList ks).drop p).take j).foldl
        (fun atr tr => (atr * ((p : ℚ) - 1) + tr) / (p : ℚ))
        (((trList ks).take p).sum / (p : ℚ)) = atrSpecFrom ks p j := by
  intro j
  induction j with
  | zero =>
    intro hpj
    simp only [List.take_zero, List.foldl_nil, atrSpecFrom]
    congr 1
    refine take_sum_range p (by omega) (fun i hi => trList_get ks i ?_)
    have hl := trList_length ks
    omega
  | succ n ih =>
    intro hpj
    have hidx : ((trList ks).drop p)[n]? = some (trAt ks (p + n + 1)) := by
      rw [List.getElem?_drop]
      refine trList_get ks (p + n) ?_
      have hl := trList_length ks
      omega
    rw [List.take_succ, List.foldl_append, ih (by omega), hidx]
    simp only [Option.toList_some, List.foldl_cons, List.foldl_nil, atrSpecFrom]

/-- C7: the ATR primitive returns 0 unless `n > p` and `p > 0`, and otherwise
computes the true ranges `TR[i] = max(h_i − l_i, |h_i − c_{i−1}|,
|l_i − c_{i−1}|)` for `i ≥ 1`, seeds with the arithmetic mean of
`TR[1..p]`, applies Wilder smoothing `ATR_i = (ATR_{i−1}·(p−1) + TR_i)/p`
for `i > p`, and returns the final smoothed value — i.e. the embedded code
coincides with the spec-side definition on every input. -/
theorem c7_atr_refines_spec (klines : List Kline) (period : ℤ) :
    calculateATRFromKlines klines period = atrSpec klines period ∧
      ((klines.length : ℤ) ≤ period ∨ period ≤ 0 →
        calculateATRFromKlines klines period = 0) := by
  constructor
  · simp only [calculateATRFromKlines, atrSpec]
    by_cases hg : (klines.length : ℤ) ≤ period ∨ period ≤ 0
    · rw [if_pos hg, if_pos hg]
    · rw [if_neg hg, if_neg hg]
      push_neg at hg
      obtain ⟨hlen, hper⟩ := hg
      have hnp : period.toNat < klines.length := by omega
      have hlength : ((trList klines).drop period.toNat).length =
          klines.length - 1 - period.toNat := by
        rw [List.length_drop, trList_length]
      have hfull : (trList klines).drop period.toNat =
          ((trList klines).drop period.toNat).take (klines.length - 1 - period.toNat) := by
        rw [← hlength, List.take_length]
      rw [hfull, foldl_wilder klines period.toNat (klines.length - 1 - period.toNat)
        (by rw [trList_length]; omega)]
  · intro hg
    unfold calculateATRFromKlines
    rw [if_pos hg]

/-- Witness for C7's guard at a concrete input: an empty kline list returns
0 for period 5. -/
theorem c7_atr_refines_spec_witness : calculateATRFromKlines [] 5 = 0 :=
  (c7_atr_refines_spec [] 5).2 (by norm_num)

end NofxTrailing
